import Mathlib

/-!
# CppMT dataset loader (`parse_dataset.h`): embedding and verified properties

A shallow embedding of the tracking-benchmark dataset loader: the abstract
`ParseDataset`, its two format variants `ParseDatasetOtb50` and
`ParseDatasetVot2013`, and `ParseDatasetFactory`.

Modelling conventions.
* `std::string` contents and file contents are `List Char`; paths are `String`.
* `int` values are `Int`; a conversion to `int` is made explicit with `toInt32`.
* An out-of-bounds subscript on a `std::vector` (undefined behaviour in the
  source) is the result `none`.
* The file system (`cv::glob`, `std::ifstream::open`) is a parameter.
* `float`/`double` arithmetic is taken over an ordered field with a square
  root operation supplied by the caller; the theorems instantiate it with
  the real numbers and `Real.sqrt`.
-/

set_option autoImplicit false

/-! ## Basic data -/

/-- The type `cv::Rect` (that is `cv::Rect_<int>`). -/
structure Rect where
  x : Int
  y : Int
  width : Int
  height : Int
deriving DecidableEq

/-- Conversion of an integer value to a 32-bit two's complement `int`. -/
def toInt32 (n : Int) : Int := (n + 2147483648) % 4294967296 - 2147483648

/-- The part of the file system the loader touches: `cv::glob(pattern, list)`
and the content of a file that `std::ifstream::open` manages to open
(`none` when `is_open()` is false afterwards). -/
structure FileSystem where
  glob : String → List String
  content : String → Option (List Char)

/-- Data members of `class ParseDataset`. -/
structure ParseDataset where
  path_ : String
  pictures_ : List String
  bboxes_ : List Rect
deriving DecidableEq

namespace ParseDataset

/-- Constructor `ParseDataset(path)`: the two vectors start empty. -/
def new (path : String) : ParseDataset := ⟨path, [], []⟩

/-- Member `parse_pictures(pattern)`: every globbed path is pushed back. -/
def parse_pictures (fs : FileSystem) (pattern : String) (d : ParseDataset) : ParseDataset :=
  { d with pictures_ := d.pictures_ ++ fs.glob pattern }

/-- Member `num()`: `(int)pictures_.size()`. -/
def num (d : ParseDataset) : Int := toInt32 (d.pictures_.length : Int)

/-- Subscript `v[index]` with an `int` index on a vector: the index is
converted to `size_t`, so a negative index is far out of range. -/
def subscript {β : Type} (v : List β) (index : Int) : Option β :=
  if 0 ≤ index then v.get? index.toNat else none

/-- Member `get_bbox(index)`. -/
def get_bbox (d : ParseDataset) (index : Int) : Option Rect :=
  if index < d.num then subscript d.bboxes_ index else some ⟨0, 0, 0, 0⟩

/-- Member `read_image(index, flag)`, with the library function `cv::imread`
and the default-constructed (empty) `cv::Mat` as parameters. -/
def read_image {Mat : Type} (imread : String → Int → Mat) (emptyMat : Mat) (d : ParseDataset)
    (index flag : Int) : Option Mat :=
  if index < d.num then (subscript d.pictures_ index).map (fun pic => imread pic flag)
  else some emptyMat

end ParseDataset

/-! ## Text input: `getline`, `operator>>` on strings, `atoi` -/

/-- The lines that successive calls `getline(gt, line)` deliver until the call
fails: the text is cut at every newline, and an empty remainder after the last
newline is not a line. -/
def getlines : List Char → List (List Char)
  | [] => []
  | c :: cs =>
    if c = '\n' then [] :: getlines cs
    else
      match getlines cs with
      | [] => [[c]]
      | l :: ls => (c :: l) :: ls

/-- Library function `isspace` in the "C" locale. -/
def isspace (c : Char) : Bool :=
  c = ' ' || c = '\t' || c = '\n' || c = Char.ofNat 11 || c = Char.ofNat 12 || c = '\r'

/-- Statement `std::replace(line.begin(), line.end(), ',', ' ')`. -/
def replaceCommas (line : List Char) : List Char :=
  line.map fun c => if c = ',' then ' ' else c

/-- One `ss >> str` on a string stream whose unread part is `ss`: leading
white space is skipped; when nothing is left the extraction fails, `str` keeps
its old value and the stream stays failed (nothing more can be read);
otherwise `str` is replaced by the maximal run of non-space characters.
Returns the unread part and the new value of `str`. -/
def extractString (ss : List Char) (str : List Char) : List Char × List Char :=
  match ss.dropWhile isspace with
  | [] => ([], str)
  | c :: cs => ((c :: cs).dropWhile (fun a => !isspace a), (c :: cs).takeWhile (fun a => !isspace a))

/-- Library function `isdigit`. -/
def isdigit (c : Char) : Bool := 48 ≤ c.toNat && c.toNat ≤ 57

/-- Value of the leading run of decimal digits, continuing from `acc`. -/
def digitsValue : Nat → List Char → Nat
  | acc, [] => acc
  | acc, c :: cs => if isdigit c then digitsValue (acc * 10 + (c.toNat - 48)) cs else acc

/-- Saturation of `strtol` to the range of a 64-bit `long`. -/
def clampLong (n : Int) : Int :=
  if n < -9223372036854775808 then -9223372036854775808
  else if 9223372036854775807 < n then 9223372036854775807
  else n

/-- Library function `atoi`, as `(int) strtol(s, NULL, 10)`: leading white
space, an optional sign, then the longest run of digits (value 0 when there is
none). -/
def atoi (s : List Char) : Int :=
  match s.dropWhile isspace with
  | [] => 0
  | c :: cs =>
    if c = '-' then toInt32 (clampLong (-(digitsValue 0 cs : Int)))
    else if c = '+' then toInt32 (clampLong (digitsValue 0 cs : Int))
    else toInt32 (clampLong (digitsValue 0 (c :: cs) : Int))

/-! ## Variant `ParseDatasetOtb50` -/

namespace ParseDatasetOtb50

/-- The four local strings `x_str, y_str, w_str, h_str` of `parse_groundtruth`;
they are declared before the loop and so live across lines. -/
structure Strs where
  x_str : List Char
  y_str : List Char
  w_str : List Char
  h_str : List Char
deriving DecidableEq

/-- The strings as default-constructed before the loop. -/
def Strs.empty : Strs := ⟨[], [], [], []⟩

/-- Statements `replace`, `ss.str(line)` and `ss >> x_str >> y_str >> w_str >> h_str`. -/
def readStrs (line : List Char) (s : Strs) : Strs :=
  let r1 := extractString (replaceCommas line) s.x_str
  let r2 := extractString r1.1 s.y_str
  let r3 := extractString r2.1 s.w_str
  let r4 := extractString r3.1 s.h_str
  ⟨r1.2, r2.2, r3.2, r4.2⟩

/-- The rectangle `cv::Rect bbox(x, y, w, h)` built from the four strings. -/
def rectOf (s : Strs) : Rect :=
  ⟨atoi s.x_str, atoi s.y_str, atoi s.w_str, atoi s.h_str⟩

/-- Body of the `while (getline(gt, line))` loop: the state is the four
strings and `bboxes_`. -/
def loopBody (st : Strs × List Rect) (line : List Char) : Strs × List Rect :=
  let s := readStrs line st.1
  (s, st.2 ++ [rectOf s])

/-- Constructor `ParseDatasetOtb50(path)`. -/
def new (path : String) : ParseDataset := ParseDataset.new path

/-- Member `get_picture_path()`. -/
def get_picture_path (d : ParseDataset) : String := d.path_ ++ "/img/*.jpg"

/-- Member `get_groundtruth_path()`. -/
def get_groundtruth_path (d : ParseDataset) : String := d.path_ ++ "/groundtruth_rect.txt"

/-- Member `parse_groundtruth(groundtruth_path)`. The first component is the
returned status: `some (-1)` for the explicit `return -1`, and `none` when
control leaves the function after `gt.close()`, where the source has no
`return` statement. -/
def parse_groundtruth (fs : FileSystem) (groundtruth_path : String) (d : ParseDataset) :
    Option Int × ParseDataset :=
  match fs.content groundtruth_path with
  | none => (some (-1), d)
  | some gt =>
    (none, { d with bboxes_ := ((getlines gt).foldl loopBody (Strs.empty, d.bboxes_)).2 })

/-- Inherited member `parse()` with the virtual calls resolved for this variant. -/
def parse (fs : FileSystem) (d : ParseDataset) : ParseDataset :=
  let picture_path := get_picture_path d
  let groundtruth_path := get_groundtruth_path d
  let d1 := ParseDataset.parse_pictures fs picture_path d
  (parse_groundtruth fs groundtruth_path d1).2

end ParseDatasetOtb50

/-! ## Variant `ParseDatasetVot2013` -/

/-- The type `cv::Point2f`, over the number type `α`. -/
structure Point2f (α : Type) where
  x : α
  y : α

/-- The type `cv::Rect_<float>`, over the number type `α`. -/
structure Rect_ (α : Type) where
  x : α
  y : α
  width : α
  height : α

/-- The eight local variables `x1, y1, ..., x4, y4` of `parse_groundtruth`;
they are declared before the loop and so live across lines. -/
structure Floats8 (α : Type) where
  x1 : α
  y1 : α
  x2 : α
  y2 : α
  x3 : α
  y3 : α
  x4 : α
  y4 : α

/-- What the polygon variant takes from the floating-point environment:
* `sqrt`: the square root;
* `toInt`: the cast `(int)` of a floating value;
* `extract`: the statement `ss >> x1 >> y1 >> ... >> y4` on a stream holding
  the given text, as a function of the previous values of the eight variables;
* `uninit`: the indeterminate values of the eight variables before the first
  extraction (they are declared without initialiser);
* `undefRect`: the integer rectangle that the casts produce for a polygon
  on which `getAxisAlignedBB` divides by zero. -/
structure FloatEnv (α : Type) where
  sqrt : α → α
  toInt : α → Int
  extract : List Char → Floats8 α → Floats8 α
  uninit : Floats8 α
  undefRect : List (Point2f α) → Rect

/-- Data members of `class ParseDatasetVot2013`. -/
structure ParseDatasetVot2013 (α : Type) extends ParseDataset where
  polygons_ : List (List (Point2f α))

namespace ParseDatasetVot2013

variable {α : Type} [LinearOrderedField α]

/-- Operator `a - b` on points. -/
def sub (a b : Point2f α) : Point2f α := ⟨a.x - b.x, a.y - b.y⟩

/-- Function `cv::norm(pt)`: `sqrt(pt.x * pt.x + pt.y * pt.y)`. -/
def norm (sqrt : α → α) (pt : Point2f α) : α := sqrt (pt.x * pt.x + pt.y * pt.y)

/-- Local `A1` of `getAxisAlignedBB`, as a function of `polygon[1]`,
`polygon[2]`, `polygon[3]`. -/
def A1 (sqrt : α → α) (q1 q2 q3 : Point2f α) : α :=
  norm sqrt (sub q1 q2) * norm sqrt (sub q2 q3)

/-- Local `x1` (and, on the ordinates, `y1`) of `getAxisAlignedBB`. -/
def min4 (a b c d : α) : α := min (min (min a b) c) d

/-- Local `x2` (and, on the ordinates, `y2`) of `getAxisAlignedBB`. -/
def max4 (a b c d : α) : α := max (max (max a b) c) d

/-- Local `A2` of `getAxisAlignedBB`, as a function of `polygon[0..3]`. -/
def A2 (q0 q1 q2 q3 : Point2f α) : α :=
  (max4 q0.x q1.x q2.x q3.x - min4 q0.x q1.x q2.x q3.x) *
    (max4 q0.y q1.y q2.y q3.y - min4 q0.y q1.y q2.y q3.y)

/-- Member `getAxisAlignedBB(polygon)`. The result is `none` when the
vector has fewer than four points (subscript out of range) and when `A2` is
zero (the division `A1 / A2` has no value). The arithmetic is exact in `α`: the
rounding of the source's `float` sums, `double` operations and final conversion
to `cv::Rect_<float>` is not part of the model. -/
def getAxisAlignedBB (sqrt : α → α) (polygon : List (Point2f α)) : Option (Rect_ α) :=
  match polygon with
  | q0 :: q1 :: q2 :: q3 :: _ =>
    let cx := (q0.x + q1.x + q2.x + q3.x) / 4
    let cy := (q0.y + q1.y + q2.y + q3.y) / 4
    let x1 := min4 q0.x q1.x q2.x q3.x
    let x2 := max4 q0.x q1.x q2.x q3.x
    let y1 := min4 q0.y q1.y q2.y q3.y
    let y2 := max4 q0.y q1.y q2.y q3.y
    let a1 := A1 sqrt q1 q2 q3
    let a2 := A2 q0 q1 q2 q3
    if a2 = 0 then none
    else
      let s := sqrt (a1 / a2)
      let w := s * (x2 - x1) + 1
      let h := s * (y2 - y1) + 1
      some ⟨cx - 1 - w / 2, cy - 1 - h / 2, w, h⟩
  | _ => none

/-- Constructor `ParseDatasetVot2013(path)`. -/
def new (path : String) : ParseDatasetVot2013 α := ⟨ParseDataset.new path, []⟩

/-- Member `get_picture_path()`. -/
def get_picture_path (d : ParseDatasetVot2013 α) : String := d.path_ ++ "/*.jpg"

/-- Member `get_groundtruth_path()`. -/
def get_groundtruth_path (d : ParseDatasetVot2013 α) : String := d.path_ ++ "/groundtruth.txt"

/-- The four `polygon.push_back(cv::Point2f(..))` statements of the loop body. -/
def polygonOf (f : Floats8 α) : List (Point2f α) :=
  [⟨f.x1, f.y1⟩, ⟨f.x2, f.y2⟩, ⟨f.x3, f.y3⟩, ⟨f.x4, f.y4⟩]

/-- Statements `rect = getAxisAlignedBB(polygon)` and
`cv::Rect bbox((int)rect.x, (int)rect.y, (int)rect.width, (int)rect.height)`. -/
def bboxOf (env : FloatEnv α) (polygon : List (Point2f α)) : Rect :=
  match getAxisAlignedBB env.sqrt polygon with
  | some rect => ⟨env.toInt rect.x, env.toInt rect.y, env.toInt rect.width, env.toInt rect.height⟩
  | none => env.undefRect polygon

/-- Body of the `while (getline(gt, line))` loop: the state is the eight
variables, `bboxes_` and `polygons_`. -/
def loopBody (env : FloatEnv α)
    (st : Floats8 α × List Rect × List (List (Point2f α))) (line : List Char) :
    Floats8 α × List Rect × List (List (Point2f α)) :=
  let f := env.extract (replaceCommas line) st.1
  let polygon := polygonOf f
  (f, st.2.1 ++ [bboxOf env polygon], st.2.2 ++ [polygon])

/-- Member `parse_groundtruth(groundtruth_path)`; the status is as for the
other variant. -/
def parse_groundtruth (fs : FileSystem) (env : FloatEnv α) (groundtruth_path : String)
    (d : ParseDatasetVot2013 α) : Option Int × ParseDatasetVot2013 α :=
  match fs.content groundtruth_path with
  | none => (some (-1), d)
  | some gt =>
    let r := (getlines gt).foldl (loopBody env) (env.uninit, d.bboxes_, d.polygons_)
    (none, { d with bboxes_ := r.2.1, polygons_ := r.2.2 })

/-- Inherited member `parse_pictures(pattern)`. -/
def parse_pictures (fs : FileSystem) (pattern : String) (d : ParseDatasetVot2013 α) :
    ParseDatasetVot2013 α :=
  { d with toParseDataset := ParseDataset.parse_pictures fs pattern d.toParseDataset }

/-- Inherited member `parse()` with the virtual calls resolved for this variant. -/
def parse (fs : FileSystem) (env : FloatEnv α) (d : ParseDatasetVot2013 α) :
    ParseDatasetVot2013 α :=
  let picture_path := get_picture_path d
  let groundtruth_path := get_groundtruth_path d
  let d1 := parse_pictures fs picture_path d
  (parse_groundtruth fs env groundtruth_path d1).2

/-- Member `get_polygon(index)`. -/
def get_polygon (d : ParseDatasetVot2013 α) (index : Int) : Option (List (Point2f α)) :=
  if index ≥ d.num then some [] else ParseDataset.subscript d.polygons_ index

end ParseDatasetVot2013

/-! ## `ParseDatasetFactory` -/

/-- A `ParseDataset*` that is not null: an object of one of the two derived
classes. -/
inductive Dataset (α : Type) where
  | otb50 (d : ParseDataset)
  | vot2013 (d : ParseDatasetVot2013 α)

namespace Dataset

variable {α : Type} [LinearOrderedField α]

/-- The base-class part of the object. -/
def base : Dataset α → ParseDataset
  | otb50 d => d
  | vot2013 d => d.toParseDataset

/-- Virtual member `get_picture_path()`. -/
def get_picture_path : Dataset α → String
  | otb50 d => ParseDatasetOtb50.get_picture_path d
  | vot2013 d => ParseDatasetVot2013.get_picture_path d

/-- Virtual member `get_groundtruth_path()`. -/
def get_groundtruth_path : Dataset α → String
  | otb50 d => ParseDatasetOtb50.get_groundtruth_path d
  | vot2013 d => ParseDatasetVot2013.get_groundtruth_path d

/-- Virtual member `parse_groundtruth(groundtruth_path)`. -/
def parse_groundtruth (fs : FileSystem) (env : FloatEnv α) (groundtruth_path : String) :
    Dataset α → Option Int × Dataset α
  | otb50 d =>
    let r := ParseDatasetOtb50.parse_groundtruth fs groundtruth_path d
    (r.1, otb50 r.2)
  | vot2013 d =>
    let r := ParseDatasetVot2013.parse_groundtruth fs env groundtruth_path d
    (r.1, vot2013 r.2)

/-- Member `parse_pictures(pattern)`. -/
def parse_pictures (fs : FileSystem) (pattern : String) : Dataset α → Dataset α
  | otb50 d => otb50 (ParseDataset.parse_pictures fs pattern d)
  | vot2013 d => vot2013 (ParseDatasetVot2013.parse_pictures fs pattern d)

/-- Member `parse()`. -/
def parse (fs : FileSystem) (env : FloatEnv α) (p : Dataset α) : Dataset α :=
  let picture_path := p.get_picture_path
  let groundtruth_path := p.get_groundtruth_path
  let p1 := p.parse_pictures fs picture_path
  (p1.parse_groundtruth fs env groundtruth_path).2

/-- Member `num()`. -/
def num (p : Dataset α) : Int := p.base.num

/-- Member `get_bbox(index)`. -/
def get_bbox (p : Dataset α) (index : Int) : Option Rect := p.base.get_bbox index

end Dataset

namespace ParseDatasetFactory

/-- Member `c_str()` as a C string: the characters before the first NUL. -/
def c_str (s : String) : List Char := s.toList.takeWhile (fun c => c != Char.ofNat 0)

/-- Library function `strcmp` on two C strings given without their
terminating NUL. -/
def strcmp : List Char → List Char → Int
  | [], [] => 0
  | [], _ :: _ => -1
  | _ :: _, [] => 1
  | a :: as, b :: bs => if a = b then strcmp as bs else if a.toNat < b.toNat then -1 else 1

/-- Member `create_parse_dataset(path, type)`; `none` is the `NULL` result. -/
def create_parse_dataset (α : Type) (path : String) (type : String) : Option (Dataset α) :=
  if strcmp (c_str "otb50") (c_str type) = 0 then
    some (Dataset.otb50 (ParseDatasetOtb50.new path))
  else if strcmp (c_str "vot2015") (c_str type) = 0 then
    some (Dataset.vot2013 (ParseDatasetVot2013.new path))
  else none

/-- Member `support_dataset()`. -/
def support_dataset : String := "otb50|vot2015"

end ParseDatasetFactory

/-! ## Auxiliary notions used to state the properties -/

/-- The pieces of a text between its `'|'` characters. -/
def splitBar : List Char → List (List Char)
  | [] => [[]]
  | c :: cs =>
    if c = '|' then [] :: splitBar cs
    else
      match splitBar cs with
      | [] => [[c]]
      | l :: ls => (c :: l) :: ls

/-- The decimal form of an integer: a minus sign for a negative number, then
the decimal digits of the absolute value. -/
def decimal (x : Int) : List Char :=
  if x < 0 then '-' :: Nat.toDigits 10 x.natAbs else Nat.toDigits 10 x.natAbs

/-- A value representable as a 32-bit signed `int`. -/
def IsInt32 (x : Int) : Prop := -2147483648 ≤ x ∧ x ≤ 2147483647

/-- A field separator of a ground-truth line: a non-empty run of white space
and commas. -/
def IsSeparator (s : List Char) : Prop :=
  s ≠ [] ∧ ∀ c ∈ s, isspace c = true ∨ c = ','

/-- A file system with a single enumerated picture and the given ground-truth
file content at every path. -/
def fsOnePicture (gt : Option (List Char)) : FileSystem :=
  ⟨fun _ => ["seq/img/0001.jpg"], fun _ => gt⟩

/-- A file system with two enumerated pictures and the given ground-truth
file content at every path. -/
def fsTwoPictures (gt : Option (List Char)) : FileSystem :=
  ⟨fun _ => ["seq/img/0001.jpg", "seq/img/0002.jpg"], fun _ => gt⟩

/-- A floating-point environment over the rationals, with `sqrt` the identity,
the cast `(int)` truncating toward zero, and an extraction that reads nothing. -/
def envQ : FloatEnv ℚ :=
  ⟨fun a => a, fun a => if 0 ≤ a then ⌊a⌋ else ⌈a⌉, fun _ f => f, ⟨0, 0, 10, 0, 10, 10, 0, 10⟩,
    fun _ => ⟨0, 0, 0, 0⟩⟩

namespace ParseDatasetOtb50

/-- The rectangle that the loop of `parse_groundtruth` pushes for line
number `i` (0-based) of the text `gt`, the loop having started with empty
strings. -/
def lineRect (gt : List Char) (i : Nat) : Rect :=
  rectOf (((getlines gt).take (i + 1)).foldl (fun s line => readStrs line s) Strs.empty)

end ParseDatasetOtb50

namespace ParseDatasetVot2013

variable {α : Type} [LinearOrderedField α]

/-- The rectangle that the loop of `parse_groundtruth` pushes for line
number `i` (0-based) of the text `gt`. -/
def lineRect (env : FloatEnv α) (gt : List Char) (i : Nat) : Rect :=
  bboxOf env (polygonOf
    (((getlines gt).take (i + 1)).foldl (fun f line => env.extract (replaceCommas line) f)
      env.uninit))

end ParseDatasetVot2013

/-- The Euclidean length of the edge from `a` to `b`, for the square root
`sqrt`: the root of the sum of the squared coordinate differences. -/
def edgeLength {α : Type} [LinearOrderedField α] (sqrt : α → α) (a b : Point2f α) : α :=
  sqrt ((a.x - b.x) ^ 2 + (a.y - b.y) ^ 2)

/-- The number that a run of decimal digits denotes. -/
def decimalValue (ds : List Char) : Nat :=
  ds.foldl (fun acc c => acc * 10 + (c.toNat - 48)) 0

/-- The four points, in order, are the vertices of a rectangle: opposite sides
are equal as vectors and adjacent sides are perpendicular. -/
def IsRectangle {α : Type} [LinearOrderedField α] (p1 p2 p3 p4 : Point2f α) : Prop :=
  p2.x - p1.x = p3.x - p4.x ∧ p2.y - p1.y = p3.y - p4.y ∧
    (p2.x - p1.x) * (p3.x - p2.x) + (p2.y - p1.y) * (p3.y - p2.y) = 0

/-! ## General lemmas -/

theorem toInt32_of_range (x : Int) (h : IsInt32 x) : toInt32 x = x := by
  unfold IsInt32 at h
  unfold toInt32
  omega

/-- A loop that pushes one value per line: the pushed values are those of the
successive states. -/
theorem foldl_push {σ β L : Type} (next : σ → L → σ) (out : σ → β) (ls : List L) :
    ∀ (s : σ) (bs : List β),
      ls.foldl (fun (st : σ × List β) l => (next st.1 l, st.2 ++ [out (next st.1 l)])) (s, bs)
        = (ls.foldl next s,
            bs ++ (List.range ls.length).map (fun i => out ((ls.take (i + 1)).foldl next s))) := by
  induction ls with
  | nil => intro s bs; simp
  | cons l ls ih =>
    intro s bs
    simp only [List.foldl_cons, ih, List.length_cons, List.range_succ_eq_map, List.map_cons,
      List.map_map, List.take_succ_cons, List.take_zero, List.foldl_nil, List.append_assoc,
      List.singleton_append]
    rfl

theorem map_range_get? {β : Type} (g : Nat → β) (n i : Nat) (h : i < n) :
    ((List.range n).map g).get? i = some (g i) := by
  simp [List.getElem?_range h]

theorem otb_loop (ls : List (List Char)) (bs : List Rect) :
    (ls.foldl ParseDatasetOtb50.loopBody (ParseDatasetOtb50.Strs.empty, bs)).2
      = bs ++ (List.range ls.length).map (fun i => ParseDatasetOtb50.rectOf
          ((ls.take (i + 1)).foldl (fun s line => ParseDatasetOtb50.readStrs line s)
            ParseDatasetOtb50.Strs.empty)) := by
  have h := foldl_push (fun s line => ParseDatasetOtb50.readStrs line s)
    ParseDatasetOtb50.rectOf ls ParseDatasetOtb50.Strs.empty bs
  have e : ParseDatasetOtb50.loopBody = (fun (st : ParseDatasetOtb50.Strs × List Rect) l =>
      (ParseDatasetOtb50.readStrs l st.1,
        st.2 ++ [ParseDatasetOtb50.rectOf (ParseDatasetOtb50.readStrs l st.1)])) := rfl
  rw [e, h]

theorem vot_loop {α : Type} [LinearOrderedField α] (env : FloatEnv α) (ls : List (List Char)) :
    ∀ (f : Floats8 α) (bs : List Rect) (ps : List (List (Point2f α))),
      ls.foldl (ParseDatasetVot2013.loopBody env) (f, bs, ps)
        = (ls.foldl (fun f line => env.extract (replaceCommas line) f) f,
           bs ++ (List.range ls.length).map (fun i => ParseDatasetVot2013.bboxOf env
             (ParseDatasetVot2013.polygonOf
               ((ls.take (i + 1)).foldl (fun f line => env.extract (replaceCommas line) f) f))),
           ps ++ (List.range ls.length).map (fun i => ParseDatasetVot2013.polygonOf
               ((ls.take (i + 1)).foldl (fun f line => env.extract (replaceCommas line) f) f))) := by
  induction ls with
  | nil => intro f bs ps; simp
  | cons l ls ih =>
    intro f bs ps
    simp only [List.foldl_cons, ParseDatasetVot2013.loopBody, ih, List.length_cons,
      List.range_succ_eq_map, List.map_cons, List.map_map, List.take_succ_cons, List.take_zero,
      List.foldl_nil, List.append_assoc, List.singleton_append]
    rfl

theorem otb_parse_fresh (fs : FileSystem) (path : String) (gt : List Char)
    (h : fs.content (path ++ "/groundtruth_rect.txt") = some gt) :
    ParseDatasetOtb50.parse fs (ParseDatasetOtb50.new path)
      = ⟨path, fs.glob (path ++ "/img/*.jpg"),
          (List.range (getlines gt).length).map (ParseDatasetOtb50.lineRect gt)⟩ := by
  simp only [ParseDatasetOtb50.parse, ParseDatasetOtb50.parse_groundtruth,
    ParseDatasetOtb50.get_groundtruth_path, ParseDatasetOtb50.get_picture_path,
    ParseDataset.parse_pictures, ParseDatasetOtb50.new, ParseDataset.new, h, otb_loop,
    List.nil_append]
  rfl

theorem vot_parse_fresh {α : Type} [LinearOrderedField α] (fs : FileSystem) (env : FloatEnv α)
    (path : String) (gt : List Char) (h : fs.content (path ++ "/groundtruth.txt") = some gt) :
    (ParseDatasetVot2013.parse fs env (ParseDatasetVot2013.new path)).toParseDataset
      = ⟨path, fs.glob (path ++ "/*.jpg"),
          (List.range (getlines gt).length).map (ParseDatasetVot2013.lineRect env gt)⟩ := by
  simp only [ParseDatasetVot2013.parse, ParseDatasetVot2013.parse_groundtruth,
    ParseDatasetVot2013.get_groundtruth_path, ParseDatasetVot2013.get_picture_path,
    ParseDatasetVot2013.parse_pictures, ParseDataset.parse_pictures, ParseDatasetVot2013.new,
    ParseDataset.new, h, vot_loop, List.nil_append]
  rfl

theorem get_bbox_in_range (d : ParseDataset) (index : Int) (h0 : 0 ≤ index)
    (h : index < d.num) : d.get_bbox index = d.bboxes_.get? index.toNat := by
  simp [ParseDataset.get_bbox, ParseDataset.subscript, h, h0]

/-! ## C1: `get_bbox` on a parsed dataset -/

theorem toInt32_le_self (n : Nat) : toInt32 (n : Int) ≤ n := by
  unfold toInt32
  omega

/-- The guard `index < num()` keeps the subscript `pictures_[index]` of
`read_image` in bounds for every index that is not negative. -/
theorem read_image_in_bounds {Mat : Type} (imread : String → Int → Mat) (emptyMat : Mat)
    (d : ParseDataset) (index flag : Int) (h0 : 0 ≤ index) :
    (ParseDataset.read_image imread emptyMat d index flag).isSome = true := by
  unfold ParseDataset.read_image
  split
  · rename_i h
    have hle := toInt32_le_self d.pictures_.length
    have hlt : index.toNat < d.pictures_.length := by
      unfold ParseDataset.num at h
      omega
    simp [ParseDataset.subscript, h0, List.getElem?_eq_getElem hlt]
  · rfl

/-- With a line of the ground-truth file for the index, `get_bbox(index)` is the
rectangle that the loop pushed for that line, for both variants. -/
theorem get_bbox_of_parsed_line {α : Type} [LinearOrderedField α] (fs : FileSystem)
    (env : FloatEnv α) (path : String) (gt : List Char) (index : Int) (h0 : 0 ≤ index)
    (hlines : index.toNat < (getlines gt).length) :
    (fs.content (path ++ "/groundtruth_rect.txt") = some gt →
      index < (ParseDatasetOtb50.parse fs (ParseDatasetOtb50.new path)).num →
      (ParseDatasetOtb50.parse fs (ParseDatasetOtb50.new path)).get_bbox index
        = some (ParseDatasetOtb50.lineRect gt index.toNat)) ∧
    (fs.content (path ++ "/groundtruth.txt") = some gt →
      index < (ParseDatasetVot2013.parse fs env (ParseDatasetVot2013.new path)).num →
      (ParseDatasetVot2013.parse fs env (ParseDatasetVot2013.new path)).get_bbox index
        = some (ParseDatasetVot2013.lineRect env gt index.toNat)) := by
  constructor
  · intro hgt hnum
    rw [get_bbox_in_range _ _ h0 hnum, otb_parse_fresh fs path gt hgt]
    exact map_range_get? _ _ _ hlines
  · intro hgt hnum
    rw [get_bbox_in_range _ _ h0 hnum, vot_parse_fresh fs env path gt hgt]
    exact map_range_get? _ _ _ hlines

/-- C1 (the code breaks the claim): with one enumerated picture and a
ground-truth file that is opened but empty, or that cannot be opened, index 0
satisfies `0 <= index < num()` after `parse()`, yet `bboxes_` is empty: the guard
of `get_bbox(0)` lets the lookup `bboxes_[0]` through and it is out of bounds,
where the claim says it is in bounds. On the same states the same guard keeps
the lookup `pictures_[0]` of the sibling `read_image(0, flag)` in bounds. -/
theorem get_bbox_short_groundtruth_out_of_bounds :
    ((0 : Int) ≤ 0 ∧
      0 < (ParseDatasetOtb50.parse (fsOnePicture (some [])) (ParseDatasetOtb50.new "seq")).num ∧
      (ParseDatasetOtb50.parse (fsOnePicture (some [])) (ParseDatasetOtb50.new "seq")).bboxes_
        = [] ∧
      (ParseDatasetOtb50.parse (fsOnePicture (some [])) (ParseDatasetOtb50.new "seq")).get_bbox 0
        = none ∧
      (ParseDatasetOtb50.parse (fsOnePicture (some [])) (ParseDatasetOtb50.new "seq")).read_image
        (fun pic _ => pic) "" 0 1 = some "seq/img/0001.jpg") ∧
    (0 < (ParseDatasetOtb50.parse (fsOnePicture none) (ParseDatasetOtb50.new "seq")).num ∧
      (ParseDatasetOtb50.parse (fsOnePicture none) (ParseDatasetOtb50.new "seq")).get_bbox 0
        = none ∧
      (ParseDatasetOtb50.parse (fsOnePicture none) (ParseDatasetOtb50.new "seq")).read_image
        (fun pic _ => pic) "" 0 1 = some "seq/img/0001.jpg") := by
  decide

/-! ## C2: out-of-range indices -/

/-- C2: for every dataset state and every `int` index with `index >= num()`,
`get_bbox(index)` returns the sentinel `Rect(0,0,0,0)` and, on the polygon
variant, `get_polygon(index)` returns an empty sequence, whatever `bboxes_` and
`polygons_` contain. -/
theorem out_of_range_sentinels {α : Type} (b : ParseDataset) (d : ParseDatasetVot2013 α)
    (index : Int) :
    (b.num ≤ index → b.get_bbox index = some ⟨0, 0, 0, 0⟩) ∧
    (d.num ≤ index →
      d.get_bbox index = some ⟨0, 0, 0, 0⟩ ∧
      ParseDatasetVot2013.get_polygon d index = some []) := by
  refine ⟨fun hb => ?_, fun hd => ⟨?_, ?_⟩⟩
  · simp [ParseDataset.get_bbox, not_lt.mpr hb]
  · simp [ParseDataset.get_bbox, not_lt.mpr hd]
  · simp [ParseDatasetVot2013.get_polygon, hd]

/-- C2 witness: two datasets with one picture each, a stored rectangle and a
stored polygon, asked at index 1. -/
theorem out_of_range_sentinels_witness :
    (⟨"seq", ["a.jpg"], [⟨1, 2, 3, 4⟩]⟩ : ParseDataset).get_bbox 1 = some ⟨0, 0, 0, 0⟩ ∧
    (⟨⟨"seq", ["a.jpg"], [⟨1, 2, 3, 4⟩]⟩, [[⟨0, 0⟩]]⟩ : ParseDatasetVot2013 ℚ).get_bbox 1
      = some ⟨0, 0, 0, 0⟩ ∧
    ParseDatasetVot2013.get_polygon
      (⟨⟨"seq", ["a.jpg"], [⟨1, 2, 3, 4⟩]⟩, [[⟨0, 0⟩]]⟩ : ParseDatasetVot2013 ℚ) 1 = some [] :=
  have w := out_of_range_sentinels ⟨"seq", ["a.jpg"], [⟨1, 2, 3, 4⟩]⟩
    (⟨⟨"seq", ["a.jpg"], [⟨1, 2, 3, 4⟩]⟩, [[⟨0, 0⟩]]⟩ : ParseDatasetVot2013 ℚ) 1
  ⟨w.1 (by decide), w.2 (by decide)⟩

/-! ## C3: sizes after `parse()` -/

/-- C3 (as stated, refuted): with two enumerated pictures and an opened
ground-truth file of one line, `parse()` on a fresh parser leaves
`bboxes_.size() = 1` and `pictures_.size() = 2`. -/
theorem parse_sizes_differ :
    (fsTwoPictures (some "10,20,30,40\n".toList)).content
        (ParseDatasetOtb50.get_groundtruth_path (ParseDatasetOtb50.new "seq"))
      = some "10,20,30,40\n".toList ∧
    (ParseDatasetOtb50.parse (fsTwoPictures (some "10,20,30,40\n".toList))
      (ParseDatasetOtb50.new "seq")).bboxes_.length = 1 ∧
    (ParseDatasetOtb50.parse (fsTwoPictures (some "10,20,30,40\n".toList))
      (ParseDatasetOtb50.new "seq")).pictures_.length = 2 := by
  decide

/-- C3 (amended): after `parse()` on a freshly constructed parser of either
variant whose ground-truth file could be opened, `bboxes_.size()` is the
number of lines of the ground-truth file and `pictures_.size()` is the number
of enumerated picture paths; so the two sizes are equal exactly when the file
has as many lines as there are enumerated paths. -/
theorem parse_sizes {α : Type} [LinearOrderedField α] (fs : FileSystem) (env : FloatEnv α)
    (path : String) (gt : List Char) :
    (fs.content (path ++ "/groundtruth_rect.txt") = some gt →
      (ParseDatasetOtb50.parse fs (ParseDatasetOtb50.new path)).bboxes_.length
          = (getlines gt).length ∧
      (ParseDatasetOtb50.parse fs (ParseDatasetOtb50.new path)).pictures_.length
          = (fs.glob (path ++ "/img/*.jpg")).length ∧
      ((ParseDatasetOtb50.parse fs (ParseDatasetOtb50.new path)).bboxes_.length
          = (ParseDatasetOtb50.parse fs (ParseDatasetOtb50.new path)).pictures_.length
        ↔ (getlines gt).length = (fs.glob (path ++ "/img/*.jpg")).length)) ∧
    (fs.content (path ++ "/groundtruth.txt") = some gt →
      (ParseDatasetVot2013.parse fs env (ParseDatasetVot2013.new path)).bboxes_.length
          = (getlines gt).length ∧
      (ParseDatasetVot2013.parse fs env (ParseDatasetVot2013.new path)).pictures_.length
          = (fs.glob (path ++ "/*.jpg")).length ∧
      ((ParseDatasetVot2013.parse fs env (ParseDatasetVot2013.new path)).bboxes_.length
          = (ParseDatasetVot2013.parse fs env (ParseDatasetVot2013.new path)).pictures_.length
        ↔ (getlines gt).length = (fs.glob (path ++ "/*.jpg")).length)) := by
  constructor
  · intro hgt
    rw [otb_parse_fresh fs path gt hgt]
    simp
  · intro hgt
    rw [vot_parse_fresh fs env path gt hgt]
    simp

/-- C3 witness: one enumerated picture and a ground-truth file of one line. -/
theorem parse_sizes_witness :
    (ParseDatasetOtb50.parse (fsOnePicture (some "10,20,30,40\n".toList))
      (ParseDatasetOtb50.new "seq")).bboxes_.length
      = (ParseDatasetOtb50.parse (fsOnePicture (some "10,20,30,40\n".toList))
      (ParseDatasetOtb50.new "seq")).pictures_.length :=
  (((parse_sizes (fsOnePicture (some "10,20,30,40\n".toList)) envQ "seq"
      "10,20,30,40\n".toList).1 rfl).2.2).mpr (by decide)

/-! ## C8, C9: the factory -/

theorem strcmp_eq_zero_iff (a : List Char) :
    ∀ b : List Char, ParseDatasetFactory.strcmp a b = 0 ↔ a = b := by
  induction a with
  | nil => intro b; cases b <;> simp [ParseDatasetFactory.strcmp]
  | cons x xs ih =>
    intro b
    cases b with
    | nil => simp [ParseDatasetFactory.strcmp]
    | cons y ys =>
      by_cases hxy : x = y
      · simp [ParseDatasetFactory.strcmp, hxy, ih]
      · by_cases hlt : x.toNat < y.toNat <;> simp [ParseDatasetFactory.strcmp, hxy, hlt]

theorem c_str_of_no_nul (s : String) (h : Char.ofNat 0 ∉ s.toList) :
    ParseDatasetFactory.c_str s = s.toList := by
  unfold ParseDatasetFactory.c_str
  rw [List.takeWhile_eq_self_iff]
  intro c hc
  have : c ≠ Char.ofNat 0 := fun e => h (e ▸ hc)
  simpa using this

theorem strcmp_dispatch {β : Type} (a b t : List Char) (x y : β) :
    (if ParseDatasetFactory.strcmp a t = 0 then some x
      else if ParseDatasetFactory.strcmp b t = 0 then some y else none).isSome = true ↔
      (t = a ∨ t = b) := by
  simp only [strcmp_eq_zero_iff]
  by_cases h1 : a = t
  · simp [h1]
  · by_cases h2 : b = t
    · simp [h1, h2]
    · simp [h1, h2, Ne.symm h1, Ne.symm h2]

theorem create_isSome_iff_c_str (α : Type) (path type : String) :
    (ParseDatasetFactory.create_parse_dataset α path type).isSome = true ↔
      (ParseDatasetFactory.c_str type = "otb50".toList ∨
        ParseDatasetFactory.c_str type = "vot2015".toList) := by
  have e1 : ParseDatasetFactory.c_str "otb50" = "otb50".toList := by decide
  have e2 : ParseDatasetFactory.c_str "vot2015" = "vot2015".toList := by decide
  unfold ParseDatasetFactory.create_parse_dataset
  rw [e1, e2]
  exact strcmp_dispatch _ _ _ _ _

/-- C8 (as stated, refuted): the type string `otb50` followed by a NUL
character and `x` is neither `"otb50"` nor `"vot2015"`, yet the factory returns
a parser for it, because `strcmp` compares C strings, which end at the first
NUL. -/
theorem create_parse_dataset_nul_suffix :
    String.mk ['o', 't', 'b', '5', '0', Char.ofNat 0, 'x'] ≠ "otb50" ∧
    String.mk ['o', 't', 'b', '5', '0', Char.ofNat 0, 'x'] ≠ "vot2015" ∧
    (ParseDatasetFactory.create_parse_dataset ℚ "seq"
      (String.mk ['o', 't', 'b', '5', '0', Char.ofNat 0, 'x'])).isSome = true := by
  decide

/-- C8 (amended): for every path and every type string,
`create_parse_dataset(path, type)` returns a non-null parser exactly when the
C string `type.c_str()`, the characters of `type` before its first NUL, is one
of the `'|'`-separated identifiers returned by `support_dataset()`, that is
`"otb50"` or `"vot2015"`; so for every type string without a NUL character it
returns a non-null parser exactly when the string is `"otb50"` or `"vot2015"`
(case-sensitively), and `NULL` otherwise. -/
theorem create_parse_dataset_isSome_iff (α : Type) (path type : String) :
    ((ParseDatasetFactory.create_parse_dataset α path type).isSome = true ↔
      ParseDatasetFactory.c_str type ∈ splitBar ParseDatasetFactory.support_dataset.toList) ∧
    (ParseDatasetFactory.c_str type ∈ splitBar ParseDatasetFactory.support_dataset.toList ↔
      (ParseDatasetFactory.c_str type = "otb50".toList ∨
        ParseDatasetFactory.c_str type = "vot2015".toList)) ∧
    (Char.ofNat 0 ∉ type.toList →
      ((ParseDatasetFactory.create_parse_dataset α path type).isSome = true ↔
        (type = "otb50" ∨ type = "vot2015")) ∧
      ((type ≠ "otb50" ∧ type ≠ "vot2015") →
        (ParseDatasetFactory.create_parse_dataset α path type).isNone = true)) := by
  have hs : splitBar ParseDatasetFactory.support_dataset.toList
      = ["otb50".toList, "vot2015".toList] := by decide
  have hmem : ParseDatasetFactory.c_str type ∈ splitBar ParseDatasetFactory.support_dataset.toList ↔
      (ParseDatasetFactory.c_str type = "otb50".toList ∨
        ParseDatasetFactory.c_str type = "vot2015".toList) := by
    rw [hs]; simp
  have hstr : ∀ lit : String, Char.ofNat 0 ∉ type.toList →
      (ParseDatasetFactory.c_str type = lit.toList ↔ type = lit) := by
    intro lit hn
    rw [c_str_of_no_nul type hn]
    constructor
    · intro h; exact String.ext h
    · intro h; rw [h]
  refine ⟨?_, hmem, ?_⟩
  · rw [hmem]; exact create_isSome_iff_c_str α path type
  · intro hn
    have hiff : (ParseDatasetFactory.create_parse_dataset α path type).isSome = true ↔
        (type = "otb50" ∨ type = "vot2015") := by
      rw [create_isSome_iff_c_str, hstr "otb50" hn, hstr "vot2015" hn]
    refine ⟨hiff, ?_⟩
    intro hne
    have : ¬ (ParseDatasetFactory.create_parse_dataset α path type).isSome = true := by
      rw [hiff]; tauto
    cases hc : ParseDatasetFactory.create_parse_dataset α path type with
    | none => rfl
    | some p => rw [hc] at this; simp at this

/-- C9: for every path string, the parser returned by
`create_parse_dataset(path, "otb50")` has `get_picture_path() == path + "/img/*.jpg"`
and `get_groundtruth_path() == path + "/groundtruth_rect.txt"`, and the parser
returned by `create_parse_dataset(path, "vot2015")` has
`get_picture_path() == path + "/*.jpg"` and
`get_groundtruth_path() == path + "/groundtruth.txt"`. -/
theorem create_parse_dataset_paths (α : Type) [LinearOrderedField α] (path : String) :
    (∃ p : Dataset α, ParseDatasetFactory.create_parse_dataset α path "otb50" = some p ∧
      p.get_picture_path = path ++ "/img/*.jpg" ∧
      p.get_groundtruth_path = path ++ "/groundtruth_rect.txt") ∧
    (∃ p : Dataset α, ParseDatasetFactory.create_parse_dataset α path "vot2015" = some p ∧
      p.get_picture_path = path ++ "/*.jpg" ∧
      p.get_groundtruth_path = path ++ "/groundtruth.txt") := by
  have e1 : ParseDatasetFactory.strcmp (ParseDatasetFactory.c_str "otb50")
      (ParseDatasetFactory.c_str "otb50") = 0 := by decide
  have e2 : ParseDatasetFactory.strcmp (ParseDatasetFactory.c_str "otb50")
      (ParseDatasetFactory.c_str "vot2015") ≠ 0 := by decide
  have e3 : ParseDatasetFactory.strcmp (ParseDatasetFactory.c_str "vot2015")
      (ParseDatasetFactory.c_str "vot2015") = 0 := by decide
  constructor
  · refine ⟨Dataset.otb50 (ParseDatasetOtb50.new path), ?_, rfl, rfl⟩
    simp [ParseDatasetFactory.create_parse_dataset, e1]
  · refine ⟨Dataset.vot2013 (ParseDatasetVot2013.new path), ?_, rfl, rfl⟩
    simp [ParseDatasetFactory.create_parse_dataset, e2, e3]

/-! ## C10: unreadable ground-truth file -/

/-- C10: for both variants, when the ground-truth file cannot be opened
`parse_groundtruth` returns the negative status `-1` and leaves `bboxes_`,
`polygons_` and `pictures_` exactly as they were; so after `parse()` on a fresh
parser the ground-truth sequence is empty while `pictures_` is exactly the
enumerated list. -/
theorem parse_groundtruth_unreadable {α : Type} [LinearOrderedField α] (fs : FileSystem)
    (env : FloatEnv α) (gtpath path : String) (d : ParseDataset) (v : ParseDatasetVot2013 α) :
    (fs.content gtpath = none →
      ParseDatasetOtb50.parse_groundtruth fs gtpath d = (some (-1), d) ∧
      ParseDatasetVot2013.parse_groundtruth fs env gtpath v = (some (-1), v)) ∧
    (fs.content (path ++ "/groundtruth_rect.txt") = none →
      (ParseDatasetOtb50.parse fs (ParseDatasetOtb50.new path)).bboxes_ = [] ∧
      (ParseDatasetOtb50.parse fs (ParseDatasetOtb50.new path)).pictures_
        = fs.glob (path ++ "/img/*.jpg")) ∧
    (fs.content (path ++ "/groundtruth.txt") = none →
      (ParseDatasetVot2013.parse fs env (ParseDatasetVot2013.new path)).bboxes_ = [] ∧
      (ParseDatasetVot2013.parse fs env (ParseDatasetVot2013.new path)).polygons_ = [] ∧
      (ParseDatasetVot2013.parse fs env (ParseDatasetVot2013.new path)).pictures_
        = fs.glob (path ++ "/*.jpg")) := by
  refine ⟨fun h => ⟨?_, ?_⟩, fun hotb => ?_, fun hvot => ?_⟩
  · simp [ParseDatasetOtb50.parse_groundtruth, h]
  · simp [ParseDatasetVot2013.parse_groundtruth, h]
  · simp [ParseDatasetOtb50.parse, ParseDatasetOtb50.parse_groundtruth,
      ParseDatasetOtb50.get_groundtruth_path, ParseDatasetOtb50.get_picture_path,
      ParseDataset.parse_pictures, ParseDatasetOtb50.new, ParseDataset.new, hotb]
  · simp [ParseDatasetVot2013.parse, ParseDatasetVot2013.parse_groundtruth,
      ParseDatasetVot2013.get_groundtruth_path, ParseDatasetVot2013.get_picture_path,
      ParseDatasetVot2013.parse_pictures, ParseDataset.parse_pictures, ParseDatasetVot2013.new,
      ParseDataset.new, hvot]

/-- C10 witness: a file system with one picture in which no file can be
opened. -/
theorem parse_groundtruth_unreadable_witness :
    (ParseDatasetOtb50.parse_groundtruth (fsOnePicture none) "seq/groundtruth_rect.txt"
        ⟨"seq", ["a.jpg"], [⟨1, 2, 3, 4⟩]⟩
      = (some (-1), ⟨"seq", ["a.jpg"], [⟨1, 2, 3, 4⟩]⟩)) ∧
    (ParseDatasetOtb50.parse (fsOnePicture none) (ParseDatasetOtb50.new "seq")).bboxes_ = [] ∧
    (ParseDatasetOtb50.parse (fsOnePicture none) (ParseDatasetOtb50.new "seq")).pictures_
      = ["seq/img/0001.jpg"] ∧
    (ParseDatasetVot2013.parse (fsOnePicture none) envQ (ParseDatasetVot2013.new "seq")).polygons_
      = [] :=
  have w := parse_groundtruth_unreadable (fsOnePicture none) envQ "seq/groundtruth_rect.txt"
    "seq" ⟨"seq", ["a.jpg"], [⟨1, 2, 3, 4⟩]⟩ ⟨⟨"seq", ["a.jpg"], [⟨1, 2, 3, 4⟩]⟩, []⟩
  ⟨(w.1 rfl).1, (w.2.1 rfl).1, (w.2.1 rfl).2, (w.2.2 rfl).2.1⟩

/-! ## C4: commas and white space separate the four fields alike -/

theorem extractString_skip (ws l old : List Char) (hws : ∀ c ∈ ws, isspace c = true) :
    extractString (ws ++ l) old = extractString l old := by
  unfold extractString
  rw [List.dropWhile_append_of_pos hws]

theorem extractString_token (t rest old : List Char) (hne : t ≠ [])
    (ht : ∀ c ∈ t, isspace c = false)
    (hr : rest.takeWhile (fun a => !isspace a) = []) :
    extractString (t ++ rest) old = (rest, t) := by
  have ht' : ∀ c ∈ t, (fun a => !isspace a) c = true := by
    intro c hc; simp [ht c hc]
  have hd : rest.dropWhile (fun a => !isspace a) = rest := by
    have := List.takeWhile_append_dropWhile (fun a => !isspace a) rest
    rw [hr] at this
    simpa using this
  cases t with
  | nil => exact absurd rfl hne
  | cons c cs =>
    have hc : isspace c = false := ht c (List.mem_cons_self c cs)
    unfold extractString
    have h1 : ((c :: cs) ++ rest).dropWhile isspace = (c :: cs) ++ rest := by
      simp [List.dropWhile, hc]
    rw [h1]
    show (((c :: cs) ++ rest).dropWhile (fun a => !isspace a),
      ((c :: cs) ++ rest).takeWhile (fun a => !isspace a)) = (rest, c :: cs)
    rw [List.dropWhile_append_of_pos ht', List.takeWhile_append_of_pos ht', hd, hr]
    simp

theorem takeWhile_nonspace_of_space_head (s l : List Char) (hne : s ≠ [])
    (hs : ∀ c ∈ s, isspace c = true) :
    (s ++ l).takeWhile (fun a => !isspace a) = [] := by
  cases s with
  | nil => exact absurd rfl hne
  | cons c cs =>
    have hc : isspace c = true := hs c (List.mem_cons_self c cs)
    simp [List.takeWhile, hc]

theorem replaceCommas_token (t : List Char) (ht : ∀ c ∈ t, c ≠ ',') : replaceCommas t = t := by
  unfold replaceCommas
  conv_rhs => rw [← List.map_id t]
  apply List.map_congr_left
  intro c hc
  simp [ht c hc]

theorem replaceCommas_separator (s : List Char) (hs : IsSeparator s) :
    replaceCommas s ≠ [] ∧ ∀ c ∈ replaceCommas s, isspace c = true := by
  constructor
  · intro h
    apply hs.1
    unfold replaceCommas at h
    simpa using h
  · intro c hc
    unfold replaceCommas at hc
    rw [List.mem_map] at hc
    obtain ⟨a, ha, rfl⟩ := hc
    rcases hs.2 a ha with h | h
    · by_cases hcm : a = ','
      · simp [hcm]; decide
      · simp [hcm, h]
    · simp [h]; decide

/-- A line of four tokens with separators between them fills the four strings
with the tokens, whatever they held before. -/
theorem readStrs_four_tokens (t1 t2 t3 t4 s1 s2 s3 : List Char) (st : ParseDatasetOtb50.Strs)
    (h1 : t1 ≠ [] ∧ ∀ c ∈ t1, isspace c = false ∧ c ≠ ',')
    (h2 : t2 ≠ [] ∧ ∀ c ∈ t2, isspace c = false ∧ c ≠ ',')
    (h3 : t3 ≠ [] ∧ ∀ c ∈ t3, isspace c = false ∧ c ≠ ',')
    (h4 : t4 ≠ [] ∧ ∀ c ∈ t4, isspace c = false ∧ c ≠ ',')
    (hs1 : IsSeparator s1) (hs2 : IsSeparator s2) (hs3 : IsSeparator s3) :
    ParseDatasetOtb50.readStrs (t1 ++ s1 ++ t2 ++ s2 ++ t3 ++ s3 ++ t4) st = ⟨t1, t2, t3, t4⟩ := by
  obtain ⟨n1, w1⟩ := replaceCommas_separator s1 hs1
  obtain ⟨n2, w2⟩ := replaceCommas_separator s2 hs2
  obtain ⟨n3, w3⟩ := replaceCommas_separator s3 hs3
  have e : replaceCommas (t1 ++ s1 ++ t2 ++ s2 ++ t3 ++ s3 ++ t4)
      = t1 ++ (replaceCommas s1 ++ (t2 ++ (replaceCommas s2 ++ (t3 ++
          (replaceCommas s3 ++ (t4 ++ [])))))) := by
    have r1 := replaceCommas_token t1 (fun c hc => (h1.2 c hc).2)
    have r2 := replaceCommas_token t2 (fun c hc => (h2.2 c hc).2)
    have r3 := replaceCommas_token t3 (fun c hc => (h3.2 c hc).2)
    have r4 := replaceCommas_token t4 (fun c hc => (h4.2 c hc).2)
    unfold replaceCommas at r1 r2 r3 r4 ⊢
    simp only [List.map_append, r1, r2, r3, r4, List.append_assoc, List.append_nil]
  unfold ParseDatasetOtb50.readStrs
  simp only [e]
  rw [extractString_token t1 _ _ h1.1 (fun c hc => (h1.2 c hc).1)
    (takeWhile_nonspace_of_space_head _ _ n1 w1)]
  simp only []
  rw [extractString_skip _ _ _ w1, extractString_token t2 _ _ h2.1 (fun c hc => (h2.2 c hc).1)
    (takeWhile_nonspace_of_space_head _ _ n2 w2)]
  simp only []
  rw [extractString_skip _ _ _ w2, extractString_token t3 _ _ h3.1 (fun c hc => (h3.2 c hc).1)
    (takeWhile_nonspace_of_space_head _ _ n3 w3)]
  simp only []
  rw [extractString_skip _ _ _ w3, extractString_token t4 _ _ h4.1 (fun c hc => (h4.2 c hc).1)
    (by simp)]

theorem digitChar_isdigit (k : Nat) (h : k < 10) :
    isdigit (Nat.digitChar k) = true ∧ (Nat.digitChar k).toNat - 48 = k := by
  interval_cases k <;> decide

theorem isdigit_not_space (c : Char) (h : isdigit c = true) :
    isspace c = false ∧ c ≠ ',' ∧ c ≠ '-' ∧ c ≠ '+' := by
  have hr : 48 ≤ c.toNat ∧ c.toNat ≤ 57 := by
    simpa [isdigit] using h
  have key : ∀ d : Char, d.toNat < 48 → c ≠ d := by
    intro d hd e
    rw [e] at hr
    omega
  refine ⟨?_, key _ (by decide), key _ (by decide), key _ (by decide)⟩
  have a1 := key ' ' (by decide)
  have a2 := key '\t' (by decide)
  have a3 := key '\n' (by decide)
  have a4 := key (Char.ofNat 11) (by decide)
  have a5 := key (Char.ofNat 12) (by decide)
  have a6 := key '\r' (by decide)
  simp [isspace, a1, a2, a3, a4, a5, a6]

theorem toDigitsCore_digits (fuel : Nat) :
    ∀ (n : Nat) (ds : List Char), ∀ c ∈ Nat.toDigitsCore 10 fuel n ds,
      c ∈ ds ∨ isdigit c = true := by
  induction fuel with
  | zero => intro n ds c hc; left; simpa [Nat.toDigitsCore] using hc
  | succ fuel ih =>
    intro n ds c hc
    have hd := (digitChar_isdigit (n % 10) (Nat.mod_lt _ (by decide))).1
    simp only [Nat.toDigitsCore] at hc
    split at hc
    · rcases List.mem_cons.mp hc with h | h
      · right; rw [h]; exact hd
      · left; exact h
    · rcases ih _ _ c hc with h | h
      · rcases List.mem_cons.mp h with h | h
        · right; rw [h]; exact hd
        · left; exact h
      · right; exact h

theorem toDigitsCore_ne_nil (fuel n : Nat) (ds : List Char) :
    Nat.toDigitsCore 10 (fuel + 1) n ds ≠ [] := by
  induction fuel generalizing n ds with
  | zero => simp [Nat.toDigitsCore]
  | succ fuel ih =>
    rw [Nat.toDigitsCore]
    split
    · simp
    · exact ih _ _

theorem digitsValue_toDigitsCore (fuel : Nat) :
    ∀ (n : Nat) (ds : List Char), n < fuel →
      digitsValue 0 (Nat.toDigitsCore 10 fuel n ds) = digitsValue n ds := by
  induction fuel with
  | zero => intro n ds h; omega
  | succ fuel ih =>
    intro n ds h
    obtain ⟨hd, hv⟩ := digitChar_isdigit (n % 10) (Nat.mod_lt _ (by decide))
    simp only [Nat.toDigitsCore]
    split
    · rename_i h0
      have : n % 10 = n := by omega
      simp only [digitsValue, hd, hv, if_true, Nat.zero_mul, Nat.zero_add]
      rw [this]
    · rename_i h0
      rw [ih (n / 10) _ (by omega)]
      have : n / 10 * 10 + n % 10 = n := by omega
      simp only [digitsValue, hd, hv, if_true]
      rw [this]

theorem digitsValue_toDigits (n : Nat) : digitsValue 0 (Nat.toDigits 10 n) = n := by
  unfold Nat.toDigits
  rw [digitsValue_toDigitsCore (n + 1) n [] (Nat.lt_succ_self n)]
  rfl

theorem toDigits_token (n : Nat) :
    Nat.toDigits 10 n ≠ [] ∧ ∀ c ∈ Nat.toDigits 10 n, isdigit c = true := by
  constructor
  · exact toDigitsCore_ne_nil n n []
  · intro c hc
    rcases toDigitsCore_digits (n + 1) n [] c hc with h | h
    · simp at h
    · exact h

theorem decimal_token (x : Int) :
    decimal x ≠ [] ∧ ∀ c ∈ decimal x, isspace c = false ∧ c ≠ ',' := by
  obtain ⟨hne, hd⟩ := toDigits_token x.natAbs
  unfold decimal
  split
  · refine ⟨by simp, ?_⟩
    intro c hc
    rcases List.mem_cons.mp hc with h | h
    · rw [h]; decide
    · exact ⟨(isdigit_not_space c (hd c h)).1, (isdigit_not_space c (hd c h)).2.1⟩
  · exact ⟨hne, fun c hc => ⟨(isdigit_not_space c (hd c hc)).1, (isdigit_not_space c (hd c hc)).2.1⟩⟩

theorem clampLong_of_int32 (x : Int) (h : IsInt32 x) : clampLong x = x := by
  unfold IsInt32 at h
  unfold clampLong
  rw [if_neg (by omega), if_neg (by omega)]

/-- The function `atoi` reads back the decimal form of every `int` value. -/
theorem atoi_decimal (x : Int) (h : IsInt32 x) : atoi (decimal x) = x := by
  obtain ⟨hne, hd⟩ := toDigits_token x.natAbs
  have hv := digitsValue_toDigits x.natAbs
  unfold decimal
  split
  · rename_i hneg
    have e : (x.natAbs : Int) = -x := by omega
    have hs : ('-' :: Nat.toDigits 10 x.natAbs).dropWhile isspace
        = '-' :: Nat.toDigits 10 x.natAbs := by
      rw [List.dropWhile_cons_of_neg (by decide)]
    unfold atoi
    rw [hs]
    simp only [if_true, hv, e, neg_neg]
    rw [clampLong_of_int32 x h, toInt32_of_range x h]
  · rename_i hpos
    have e : (x.natAbs : Int) = x := by omega
    cases hl : Nat.toDigits 10 x.natAbs with
    | nil => exact absurd hl hne
    | cons c cs =>
      have hc : isdigit c = true := hd c (by rw [hl]; exact List.mem_cons_self c cs)
      obtain ⟨hsp, _, hm, hp⟩ := isdigit_not_space c hc
      have hs : (c :: cs).dropWhile isspace = c :: cs := by
        rw [List.dropWhile_cons_of_neg (by simp [hsp])]
      unfold atoi
      rw [hs]
      simp only [hm, hp, if_false]
      rw [← hl, hv, e, clampLong_of_int32 x h, toInt32_of_range x h]

/-- C4: for all integers x, y, w, h representable as 32-bit signed ints and
every state of the loop, the loop body of the fixed-rectangle
`parse_groundtruth` maps a line holding their four decimal forms separated by
any separators made of commas and white space to the rectangle
`Rect(x, y, w, h)`; in particular the comma-separated line and the
blank-separated line give the same rectangle. -/
theorem otb_line_commas_or_spaces (x y w h : Int) (hx : IsInt32 x) (hy : IsInt32 y)
    (hw : IsInt32 w) (hh : IsInt32 h) (st : ParseDatasetOtb50.Strs × List Rect) :
    (∀ s1 s2 s3 : List Char, IsSeparator s1 → IsSeparator s2 → IsSeparator s3 →
      (ParseDatasetOtb50.loopBody st
        (decimal x ++ s1 ++ decimal y ++ s2 ++ decimal w ++ s3 ++ decimal h)).2
        = st.2 ++ [⟨x, y, w, h⟩]) ∧
    (ParseDatasetOtb50.loopBody st
        (decimal x ++ [','] ++ decimal y ++ [','] ++ decimal w ++ [','] ++ decimal h)).2
        = st.2 ++ [⟨x, y, w, h⟩] ∧
    (ParseDatasetOtb50.loopBody st
        (decimal x ++ [' '] ++ decimal y ++ [' '] ++ decimal w ++ [' '] ++ decimal h)).2
        = st.2 ++ [⟨x, y, w, h⟩] := by
  have gen : ∀ s1 s2 s3 : List Char, IsSeparator s1 → IsSeparator s2 → IsSeparator s3 →
      (ParseDatasetOtb50.loopBody st
        (decimal x ++ s1 ++ decimal y ++ s2 ++ decimal w ++ s3 ++ decimal h)).2
        = st.2 ++ [⟨x, y, w, h⟩] := by
    intro s1 s2 s3 h1 h2 h3
    unfold ParseDatasetOtb50.loopBody
    simp only []
    rw [readStrs_four_tokens _ _ _ _ _ _ _ st.1 (decimal_token x) (decimal_token y)
      (decimal_token w) (decimal_token h) h1 h2 h3]
    simp only [ParseDatasetOtb50.rectOf, atoi_decimal x hx, atoi_decimal y hy, atoi_decimal w hw,
      atoi_decimal h hh]
  have hc : IsSeparator [','] := ⟨by simp, by intro c hc; right; simpa using hc⟩
  have hb : IsSeparator [' '] := by
    refine ⟨by simp, ?_⟩
    intro c hc
    left
    have : c = ' ' := by simpa using hc
    rw [this]; decide
  exact ⟨gen, gen _ _ _ hc hc hc, gen _ _ _ hb hb hb⟩

/-- C4 witness: the lines `10,20,30,40` and `10 20 30 40` both push the
rectangle `(10,20,30,40)`. -/
theorem otb_line_commas_or_spaces_witness :
    (ParseDatasetOtb50.loopBody (ParseDatasetOtb50.Strs.empty, []) "10,20,30,40".toList).2
      = [⟨10, 20, 30, 40⟩] ∧
    (ParseDatasetOtb50.loopBody (ParseDatasetOtb50.Strs.empty, []) "10 20 30 40".toList).2
      = [⟨10, 20, 30, 40⟩] :=
  have w := otb_line_commas_or_spaces 10 20 30 40 ⟨by decide, by decide⟩
    ⟨by decide, by decide⟩ ⟨by decide, by decide⟩ ⟨by decide, by decide⟩
    (ParseDatasetOtb50.Strs.empty, [])
  ⟨w.2.1, w.2.2⟩

/-! ## C5, C6, C7: `getAxisAlignedBB` in exact real arithmetic -/

theorem min4_eq_of_isLeast {α : Type} [LinearOrderedField α] (a b c d m : α)
    (h : IsLeast ({a, b, c, d} : Set α) m) : ParseDatasetVot2013.min4 a b c d = m := by
  obtain ⟨hm, hl⟩ := h
  unfold ParseDatasetVot2013.min4
  apply le_antisymm
  · simp only [Set.mem_insert_iff, Set.mem_singleton_iff] at hm
    rcases hm with rfl | rfl | rfl | rfl
    · exact le_trans (min_le_left _ _) (le_trans (min_le_left _ _) (min_le_left _ _))
    · exact le_trans (min_le_left _ _) (le_trans (min_le_left _ _) (min_le_right _ _))
    · exact le_trans (min_le_left _ _) (min_le_right _ _)
    · exact min_le_right _ _
  · have ha : m ≤ a := hl (by simp)
    have hb : m ≤ b := hl (by simp)
    have hc : m ≤ c := hl (by simp)
    have hd : m ≤ d := hl (by simp)
    exact le_min (le_min (le_min ha hb) hc) hd

theorem max4_eq_of_isGreatest {α : Type} [LinearOrderedField α] (a b c d m : α)
    (h : IsGreatest ({a, b, c, d} : Set α) m) : ParseDatasetVot2013.max4 a b c d = m := by
  obtain ⟨hm, hl⟩ := h
  unfold ParseDatasetVot2013.max4
  apply le_antisymm
  · have ha : a ≤ m := hl (by simp)
    have hb : b ≤ m := hl (by simp)
    have hc : c ≤ m := hl (by simp)
    have hd : d ≤ m := hl (by simp)
    exact max_le (max_le (max_le ha hb) hc) hd
  · simp only [Set.mem_insert_iff, Set.mem_singleton_iff] at hm
    rcases hm with rfl | rfl | rfl | rfl
    · exact le_trans (le_trans (le_max_left _ _) (le_max_left _ _)) (le_max_left _ _)
    · exact le_trans (le_trans (le_max_right _ _) (le_max_left _ _)) (le_max_left _ _)
    · exact le_trans (le_max_right _ _) (le_max_left _ _)
    · exact le_max_right _ _

theorem A1_eq_edgeLength {α : Type} [LinearOrderedField α] (sqrt : α → α)
    (q1 q2 q3 : Point2f α) :
    ParseDatasetVot2013.A1 sqrt q1 q2 q3 = edgeLength sqrt q1 q2 * edgeLength sqrt q2 q3 := by
  simp only [ParseDatasetVot2013.A1, ParseDatasetVot2013.norm, ParseDatasetVot2013.sub,
    edgeLength, pow_two]

theorem getAxisAlignedBB_of_A2_ne_zero {α : Type} [LinearOrderedField α] (sqrt : α → α)
    (q0 q1 q2 q3 : Point2f α) (h : ParseDatasetVot2013.A2 q0 q1 q2 q3 ≠ 0) :
    ParseDatasetVot2013.getAxisAlignedBB sqrt [q0, q1, q2, q3]
      = some
        ⟨(q0.x + q1.x + q2.x + q3.x) / 4 - 1
            - (sqrt (ParseDatasetVot2013.A1 sqrt q1 q2 q3 / ParseDatasetVot2013.A2 q0 q1 q2 q3)
                * (ParseDatasetVot2013.max4 q0.x q1.x q2.x q3.x
                    - ParseDatasetVot2013.min4 q0.x q1.x q2.x q3.x) + 1) / 2,
          (q0.y + q1.y + q2.y + q3.y) / 4 - 1
            - (sqrt (ParseDatasetVot2013.A1 sqrt q1 q2 q3 / ParseDatasetVot2013.A2 q0 q1 q2 q3)
                * (ParseDatasetVot2013.max4 q0.y q1.y q2.y q3.y
                    - ParseDatasetVot2013.min4 q0.y q1.y q2.y q3.y) + 1) / 2,
          sqrt (ParseDatasetVot2013.A1 sqrt q1 q2 q3 / ParseDatasetVot2013.A2 q0 q1 q2 q3)
              * (ParseDatasetVot2013.max4 q0.x q1.x q2.x q3.x
                  - ParseDatasetVot2013.min4 q0.x q1.x q2.x q3.x) + 1,
          sqrt (ParseDatasetVot2013.A1 sqrt q1 q2 q3 / ParseDatasetVot2013.A2 q0 q1 q2 q3)
              * (ParseDatasetVot2013.max4 q0.y q1.y q2.y q3.y
                  - ParseDatasetVot2013.min4 q0.y q1.y q2.y q3.y) + 1⟩ := by
  simp only [ParseDatasetVot2013.getAxisAlignedBB, h, if_false]

theorem sqrt_sixteen : Real.sqrt 16 = 4 := by
  rw [show (16 : ℝ) = 4 ^ 2 by norm_num]
  exact Real.sqrt_sq (by norm_num)

theorem sqrt_quarter : Real.sqrt (1 / 4) = 1 / 2 := by
  rw [show (1 / 4 : ℝ) = (1 / 2) ^ 2 by norm_num]
  exact Real.sqrt_sq (by norm_num)

/-- C5 (as stated, refuted): on the ordered quadrilateral `(0,0), (4,0), (4,1), (3,1)`
the product `|p1 p2| * |p2 p3|` is 4, while the `A1` of `getAxisAlignedBB` is 1;
with the tight box area 4 the scale factor is `sqrt(1/4) = 1/2`, and the
function returns the rectangle `(1/4, -5/4, 3, 3/2)`. -/
theorem getAxisAlignedBB_A1_not_first_edges :
    edgeLength Real.sqrt (⟨0, 0⟩ : Point2f ℝ) ⟨4, 0⟩ * edgeLength Real.sqrt ⟨4, 0⟩ ⟨4, 1⟩ = 4 ∧
    ParseDatasetVot2013.A1 Real.sqrt (⟨4, 0⟩ : Point2f ℝ) ⟨4, 1⟩ ⟨3, 1⟩ = 1 ∧
    ParseDatasetVot2013.getAxisAlignedBB Real.sqrt
        [(⟨0, 0⟩ : Point2f ℝ), ⟨4, 0⟩, ⟨4, 1⟩, ⟨3, 1⟩]
      = some ⟨1 / 4, -5 / 4, 3, 3 / 2⟩ := by
  have hA1 : ParseDatasetVot2013.A1 Real.sqrt (⟨4, 0⟩ : Point2f ℝ) ⟨4, 1⟩ ⟨3, 1⟩ = 1 := by
    norm_num [ParseDatasetVot2013.A1, ParseDatasetVot2013.norm, ParseDatasetVot2013.sub]
  have hA2 : ParseDatasetVot2013.A2 (⟨0, 0⟩ : Point2f ℝ) ⟨4, 0⟩ ⟨4, 1⟩ ⟨3, 1⟩ = 4 := by
    norm_num [ParseDatasetVot2013.A2, ParseDatasetVot2013.min4, ParseDatasetVot2013.max4]
  refine ⟨?_, hA1, ?_⟩
  · norm_num [edgeLength, sqrt_sixteen]
  · rw [getAxisAlignedBB_of_A2_ne_zero _ _ _ _ _ (by rw [hA2]; norm_num), hA1, hA2, sqrt_quarter]
    norm_num [ParseDatasetVot2013.min4, ParseDatasetVot2013.max4]

/-- C5 (amended): in `getAxisAlignedBB`, for every ordered quadrilateral
p1, p2, p3, p4 (p1 being the first point read from the line), the quantity `A1`
that enters the scale factor equals `|p2 p3| * |p3 p4|`, the product of the
Euclidean lengths of the edges (p2,p3) and (p3,p4), in exact real arithmetic;
it equals `|p1 p2| * |p2 p3|` whenever the edges (p1,p2) and (p3,p4) have the
same length. The scale factor of the returned rectangle is the square root of
that product divided by the tight box area. -/
theorem getAxisAlignedBB_A1_edges (p1 p2 p3 p4 : Point2f ℝ) :
    ParseDatasetVot2013.A1 Real.sqrt p2 p3 p4
      = edgeLength Real.sqrt p2 p3 * edgeLength Real.sqrt p3 p4 ∧
    (edgeLength Real.sqrt p3 p4 = edgeLength Real.sqrt p1 p2 →
      ParseDatasetVot2013.A1 Real.sqrt p2 p3 p4
        = edgeLength Real.sqrt p1 p2 * edgeLength Real.sqrt p2 p3) ∧
    (ParseDatasetVot2013.A2 p1 p2 p3 p4 ≠ 0 →
      ∃ r : Rect_ ℝ, ParseDatasetVot2013.getAxisAlignedBB Real.sqrt [p1, p2, p3, p4] = some r ∧
        r.width = Real.sqrt (edgeLength Real.sqrt p2 p3 * edgeLength Real.sqrt p3 p4
              / ParseDatasetVot2013.A2 p1 p2 p3 p4)
            * (ParseDatasetVot2013.max4 p1.x p2.x p3.x p4.x
                - ParseDatasetVot2013.min4 p1.x p2.x p3.x p4.x) + 1 ∧
        r.height = Real.sqrt (edgeLength Real.sqrt p2 p3 * edgeLength Real.sqrt p3 p4
              / ParseDatasetVot2013.A2 p1 p2 p3 p4)
            * (ParseDatasetVot2013.max4 p1.y p2.y p3.y p4.y
                - ParseDatasetVot2013.min4 p1.y p2.y p3.y p4.y) + 1) := by
  have e := A1_eq_edgeLength Real.sqrt p2 p3 p4
  refine ⟨e, ?_, ?_⟩
  · intro h
    rw [e, h]
    ring
  · intro h
    refine ⟨_, getAxisAlignedBB_of_A2_ne_zero Real.sqrt p1 p2 p3 p4 h, ?_, ?_⟩
    · simp only [e]
    · simp only [e]

/-- C6: for every 4-point polygon p1, p2, p3, p4 whose tight axis-aligned
bounding box `[xmin,xmax] x [ymin,ymax]` has positive area `A2`, `getAxisAlignedBB`
returns (in exact real arithmetic) the rectangle of width `w = s*(xmax-xmin) + 1`,
height `h = s*(ymax-ymin) + 1` and origin `(cx - 1 - w/2, cy - 1 - h/2)`, where
`(cx, cy)` is the arithmetic mean of the four points, `xmin/xmax/ymin/ymax` are
the least and greatest coordinates over the four points, and
`s = sqrt(A1 / A2)` with `A1` the edge-length product the function computes,
which is the length of the edge (p2,p3) times the length of the edge (p3,p4). -/
theorem getAxisAlignedBB_formula (p1 p2 p3 p4 : Point2f ℝ) (xmin xmax ymin ymax : ℝ)
    (hxmin : IsLeast ({p1.x, p2.x, p3.x, p4.x} : Set ℝ) xmin)
    (hxmax : IsGreatest ({p1.x, p2.x, p3.x, p4.x} : Set ℝ) xmax)
    (hymin : IsLeast ({p1.y, p2.y, p3.y, p4.y} : Set ℝ) ymin)
    (hymax : IsGreatest ({p1.y, p2.y, p3.y, p4.y} : Set ℝ) ymax)
    (hA2 : 0 < (xmax - xmin) * (ymax - ymin)) :
    ∃ a1 s w h : ℝ,
      a1 = Real.sqrt ((p2.x - p3.x) ^ 2 + (p2.y - p3.y) ^ 2)
            * Real.sqrt ((p3.x - p4.x) ^ 2 + (p3.y - p4.y) ^ 2) ∧
      s = Real.sqrt (a1 / ((xmax - xmin) * (ymax - ymin))) ∧
      w = s * (xmax - xmin) + 1 ∧
      h = s * (ymax - ymin) + 1 ∧
      ParseDatasetVot2013.getAxisAlignedBB Real.sqrt [p1, p2, p3, p4]
        = some ⟨(p1.x + p2.x + p3.x + p4.x) / 4 - 1 - w / 2,
            (p1.y + p2.y + p3.y + p4.y) / 4 - 1 - h / 2, w, h⟩ := by
  have e1 := min4_eq_of_isLeast _ _ _ _ _ hxmin
  have e2 := max4_eq_of_isGreatest _ _ _ _ _ hxmax
  have e3 := min4_eq_of_isLeast _ _ _ _ _ hymin
  have e4 := max4_eq_of_isGreatest _ _ _ _ _ hymax
  have eA2 : ParseDatasetVot2013.A2 p1 p2 p3 p4 = (xmax - xmin) * (ymax - ymin) := by
    simp only [ParseDatasetVot2013.A2, e1, e2, e3, e4]
  have eA1 : ParseDatasetVot2013.A1 Real.sqrt p2 p3 p4
      = Real.sqrt ((p2.x - p3.x) ^ 2 + (p2.y - p3.y) ^ 2)
          * Real.sqrt ((p3.x - p4.x) ^ 2 + (p3.y - p4.y) ^ 2) := by
    simp only [ParseDatasetVot2013.A1, ParseDatasetVot2013.norm, ParseDatasetVot2013.sub, pow_two]
  refine ⟨_, _, _, _, rfl, rfl, rfl, rfl, ?_⟩
  rw [getAxisAlignedBB_of_A2_ne_zero Real.sqrt p1 p2 p3 p4 (by rw [eA2]; exact ne_of_gt hA2),
    eA2, eA1, e1, e2, e3, e4]

/-- C6 witness: the quadrilateral `(1,0), (5,0), (5,1), (4,1)`, with tight box
`[1,5] x [0,1]`: the edges (p2,p3) and (p3,p4) have length 1, the scale factor is
`sqrt(1/4) = 1/2`, and the rectangle returned is `(5/4, -5/4, 3, 3/2)`. -/
theorem getAxisAlignedBB_formula_witness :
    ParseDatasetVot2013.getAxisAlignedBB Real.sqrt
        [(⟨1, 0⟩ : Point2f ℝ), ⟨5, 0⟩, ⟨5, 1⟩, ⟨4, 1⟩]
      = some ⟨5 / 4, -5 / 4, 3, 3 / 2⟩ := by
  obtain ⟨a1, s, w, h, ha1, hs, hw, hh, hr⟩ :=
    getAxisAlignedBB_formula ⟨1, 0⟩ ⟨5, 0⟩ ⟨5, 1⟩ ⟨4, 1⟩ 1 5 0 1
      ⟨by simp, by intro x hx; simp at hx; rcases hx with rfl | rfl | rfl <;> norm_num⟩
      ⟨by simp, by intro x hx; simp at hx; rcases hx with rfl | rfl | rfl <;> norm_num⟩
      ⟨by simp, by intro x hx; simp at hx; rcases hx with rfl | rfl <;> norm_num⟩
      ⟨by simp, by intro x hx; simp at hx; rcases hx with rfl | rfl <;> norm_num⟩
      (by norm_num)
  have e1 : a1 = 1 := by
    rw [ha1]
    norm_num
  have e2 : s = 1 / 2 := by
    rw [hs, e1]
    norm_num
    rw [show (4 : ℝ) = 2 ^ 2 by norm_num, Real.sqrt_sq (by norm_num)]
    norm_num
  rw [hr, hw, hh, e2]
  norm_num

theorem getAxisAlignedBB_axis_aligned_eq (a b c d : ℝ) (hac : a < c) (hbd : b < d) :
    ParseDatasetVot2013.getAxisAlignedBB Real.sqrt
        [(⟨a, b⟩ : Point2f ℝ), ⟨c, b⟩, ⟨c, d⟩, ⟨a, d⟩]
      = some ⟨(a + c) / 2 - 1 - ((c - a) + 1) / 2, (b + d) / 2 - 1 - ((d - b) + 1) / 2,
          (c - a) + 1, (d - b) + 1⟩ := by
  have hx1 : ParseDatasetVot2013.min4 a c c a = a := by
    simp [ParseDatasetVot2013.min4, hac.le]
  have hx2 : ParseDatasetVot2013.max4 a c c a = c := by
    simp [ParseDatasetVot2013.max4, hac.le]
  have hy1 : ParseDatasetVot2013.min4 b b d d = b := by
    simp [ParseDatasetVot2013.min4, hbd.le]
  have hy2 : ParseDatasetVot2013.max4 b b d d = d := by
    simp [ParseDatasetVot2013.max4, hbd.le]
  have hA2 : ParseDatasetVot2013.A2 (⟨a, b⟩ : Point2f ℝ) ⟨c, b⟩ ⟨c, d⟩ ⟨a, d⟩
      = (c - a) * (d - b) := by
    simp only [ParseDatasetVot2013.A2, hx1, hx2, hy1, hy2]
  have hpos : 0 < (c - a) * (d - b) := mul_pos (sub_pos.mpr hac) (sub_pos.mpr hbd)
  have hA1 : ParseDatasetVot2013.A1 Real.sqrt (⟨c, b⟩ : Point2f ℝ) ⟨c, d⟩ ⟨a, d⟩
      = (c - a) * (d - b) := by
    simp only [ParseDatasetVot2013.A1, ParseDatasetVot2013.norm, ParseDatasetVot2013.sub,
      sub_self, mul_zero, zero_add, add_zero]
    rw [Real.sqrt_mul_self_eq_abs, Real.sqrt_mul_self (sub_pos.mpr hac).le,
      abs_of_neg (sub_neg.mpr hbd)]
    ring
  rw [getAxisAlignedBB_of_A2_ne_zero _ _ _ _ _ (by rw [hA2]; exact ne_of_gt hpos), hA1, hA2,
    div_self (ne_of_gt hpos), Real.sqrt_one, hx1, hx2, hy1, hy2]
  simp only [one_mul]
  congr 2 <;> ring

/-- C7 (as stated, refuted): for the square `(0,0), (10,0), (10,10), (0,10)` the
function returns the rectangle `(-3/2, -3/2, 11, 11)`; its width and height are
11, but its centre `(x + width/2, y + height/2)` is `(4, 4)`, not the centroid
`(5, 5)`. (Every value of this computation is a small multiple of 1/2, so the
source's floating-point arithmetic gives the same numbers.) -/
theorem getAxisAlignedBB_square_centre :
    ParseDatasetVot2013.getAxisAlignedBB Real.sqrt
        [(⟨0, 0⟩ : Point2f ℝ), ⟨10, 0⟩, ⟨10, 10⟩, ⟨0, 10⟩]
      = some ⟨-3 / 2, -3 / 2, 11, 11⟩ ∧
    (-3 / 2 : ℝ) + 11 / 2 = 4 ∧ (-3 / 2 : ℝ) + 11 / 2 ≠ (0 + 10) / 2 := by
  refine ⟨?_, by norm_num, by norm_num⟩
  rw [getAxisAlignedBB_axis_aligned_eq 0 0 10 10 (by norm_num) (by norm_num)]
  norm_num

/-- C7 (amended): in exact real arithmetic, for every axis-aligned rectangle
given as an ordered polygon `(a,b), (c,b), (c,d), (a,d)` with `a < c` and `b < d`,
`getAxisAlignedBB` returns a rectangle with width `(c-a)+1` and height `(d-b)+1`
whose centre `(x + width/2, y + height/2)` is the polygon's centroid moved by
`(-1, -1)`, that is `((a+c)/2 - 1, (b+d)/2 - 1)`; the square
`(0,0), (10,0), (10,10), (0,10)` reduces to a rectangle with centre `(4,4)` and
width = height = 11. (The source computes in `float` and `double`; the rounding
of its sums and of the result is outside this statement.) -/
theorem getAxisAlignedBB_axis_aligned (a b c d : ℝ) (hac : a < c) (hbd : b < d) :
    ∃ r : Rect_ ℝ,
      ParseDatasetVot2013.getAxisAlignedBB Real.sqrt
          [(⟨a, b⟩ : Point2f ℝ), ⟨c, b⟩, ⟨c, d⟩, ⟨a, d⟩] = some r ∧
      r.width = (c - a) + 1 ∧ r.height = (d - b) + 1 ∧
      r.x + r.width / 2 = (a + c) / 2 - 1 ∧ r.y + r.height / 2 = (b + d) / 2 - 1 := by
  refine ⟨_, getAxisAlignedBB_axis_aligned_eq a b c d hac hbd, rfl, rfl, ?_, ?_⟩ <;> ring

/-- C7 witness: the square `(0,0), (10,0), (10,10), (0,10)` gives width and
height 11 and centre `(4, 4)`. -/
theorem getAxisAlignedBB_axis_aligned_witness :
    ∃ r : Rect_ ℝ,
      ParseDatasetVot2013.getAxisAlignedBB Real.sqrt
          [(⟨0, 0⟩ : Point2f ℝ), ⟨10, 0⟩, ⟨10, 10⟩, ⟨0, 10⟩] = some r ∧
      r.width = 11 ∧ r.height = 11 ∧ r.x + r.width / 2 = 4 ∧ r.y + r.height / 2 = 4 := by
  obtain ⟨r, h, hw, hh, hx, hy⟩ :=
    getAxisAlignedBB_axis_aligned 0 0 10 10 (by norm_num) (by norm_num)
  refine ⟨r, h, ?_, ?_, ?_, ?_⟩
  · rw [hw]; norm_num
  · rw [hh]; norm_num
  · rw [hx]; norm_num
  · rw [hy]; norm_num

/-! ## C17, C11: lines with fewer than four tokens -/

theorem otb_parse_groundtruth_some (fs : FileSystem) (gtpath : String) (d : ParseDataset)
    (gt : List Char) (h : fs.content gtpath = some gt) :
    ParseDatasetOtb50.parse_groundtruth fs gtpath d
      = (none, ⟨d.path_, d.pictures_,
          d.bboxes_ ++ (List.range (getlines gt).length).map (ParseDatasetOtb50.lineRect gt)⟩) := by
  simp only [ParseDatasetOtb50.parse_groundtruth, h, otb_loop]
  rfl

theorem readStrs_nil (s : ParseDatasetOtb50.Strs) : ParseDatasetOtb50.readStrs [] s = s := by
  cases s
  rfl

theorem getlines_ne_nil (c : Char) (cs : List Char) : getlines (c :: cs) ≠ [] := by
  unfold getlines
  split
  · simp
  · split <;> simp

theorem getlines_append_newline_ne_nil (gt : List Char) : getlines (gt ++ ['\n']) ≠ [] := by
  cases gt with
  | nil => decide
  | cons c cs => exact getlines_ne_nil c _

/-- One more newline after a final newline is one more line, an empty one. -/
theorem getlines_blank_trailing (gt : List Char) :
    getlines (gt ++ ['\n', '\n']) = getlines (gt ++ ['\n']) ++ [[]] := by
  induction gt with
  | nil => decide
  | cons c cs ih =>
    by_cases hc : c = '\n'
    · simp [getlines, hc, ih]
    · cases hl : getlines (cs ++ ['\n']) with
      | nil => exact absurd hl (getlines_append_newline_ne_nil cs)
      | cons l ls =>
        have step : ∀ xs : List Char, getlines (c :: xs)
            = match getlines xs with
              | [] => [[c]]
              | l :: ls => (c :: l) :: ls := by
          intro xs
          simp [getlines, hc]
        rw [List.cons_append, List.cons_append, step, step, ih, hl]
        rfl

theorem otb_loop_state (ls : List (List Char)) (bs : List Rect) :
    (ls.foldl ParseDatasetOtb50.loopBody (ParseDatasetOtb50.Strs.empty, bs)).1
      = ls.foldl (fun s line => ParseDatasetOtb50.readStrs line s) ParseDatasetOtb50.Strs.empty := by
  have h := foldl_push (fun s line => ParseDatasetOtb50.readStrs line s)
    ParseDatasetOtb50.rectOf ls ParseDatasetOtb50.Strs.empty bs
  have e : ParseDatasetOtb50.loopBody = (fun (st : ParseDatasetOtb50.Strs × List Rect) l =>
      (ParseDatasetOtb50.readStrs l st.1,
        st.2 ++ [ParseDatasetOtb50.rectOf (ParseDatasetOtb50.readStrs l st.1)])) := rfl
  rw [e, h]

theorem lineRect_last (gt : List Char) (h : getlines gt ≠ []) :
    ParseDatasetOtb50.lineRect gt ((getlines gt).length - 1)
      = ParseDatasetOtb50.rectOf ((getlines gt).foldl
          (fun s line => ParseDatasetOtb50.readStrs line s) ParseDatasetOtb50.Strs.empty) := by
  have hpos : 0 < (getlines gt).length := List.length_pos.mpr h
  unfold ParseDatasetOtb50.lineRect
  rw [Nat.sub_add_cancel hpos, List.take_length]

/-- A blank line appended to the lines read pushes the rectangle of the strings
as the lines before it left them. -/
theorem otb_loop_blank_last (ls : List (List Char)) (bs : List Rect) :
    ((ls ++ [[]]).foldl ParseDatasetOtb50.loopBody (ParseDatasetOtb50.Strs.empty, bs)).2
      = (ls.foldl ParseDatasetOtb50.loopBody (ParseDatasetOtb50.Strs.empty, bs)).2
        ++ [ParseDatasetOtb50.rectOf (ls.foldl
          (fun s line => ParseDatasetOtb50.readStrs line s) ParseDatasetOtb50.Strs.empty)] := by
  rw [List.foldl_append, List.foldl_cons, List.foldl_nil]
  simp only [ParseDatasetOtb50.loopBody, readStrs_nil, otb_loop_state]

/-- C11 (as stated, refuted): the file `10,20,30,40` with one blank trailing
line produces two rectangles, one more than the same file without the blank
line, and the file holding only a blank line produces the entry `(0,0,0,0)`. -/
theorem otb_blank_trailing_line_adds_rect :
    (ParseDatasetOtb50.parse_groundtruth (fsOnePicture (some "10,20,30,40\n".toList)) "gt"
        (ParseDatasetOtb50.new "seq")).2.bboxes_ = [⟨10, 20, 30, 40⟩] ∧
    (ParseDatasetOtb50.parse_groundtruth (fsOnePicture (some "10,20,30,40\n\n".toList)) "gt"
        (ParseDatasetOtb50.new "seq")).2.bboxes_ = [⟨10, 20, 30, 40⟩, ⟨10, 20, 30, 40⟩] ∧
    (ParseDatasetOtb50.parse_groundtruth (fsOnePicture (some "\n".toList)) "gt"
        (ParseDatasetOtb50.new "seq")).2.bboxes_ = [⟨0, 0, 0, 0⟩] := by
  decide

/-- C11 (amended): for every ground-truth file content, the fixed-rectangle
`parse_groundtruth` appends exactly one rectangle for every line, also for a
blank line or any other line that fails to yield four tokens; in particular a
file with one more blank trailing line produces one more rectangle, a copy of
the rectangle of the line before it, and a file holding only a blank line
produces the entry `(0,0,0,0)`. -/
theorem otb_one_rect_for_every_line (fs fs2 : FileSystem) (gtpath : String) (d : ParseDataset)
    (gt : List Char) (st : ParseDatasetOtb50.Strs × List Rect) (line : List Char) :
    (ParseDatasetOtb50.loopBody st line).2.length = st.2.length + 1 ∧
    (fs.content gtpath = some gt →
      (ParseDatasetOtb50.parse_groundtruth fs gtpath d).2.bboxes_.length
        = d.bboxes_.length + (getlines gt).length) ∧
    (fs.content gtpath = some (gt ++ ['\n']) → fs2.content gtpath = some (gt ++ ['\n', '\n']) →
      (ParseDatasetOtb50.parse_groundtruth fs gtpath d).2.bboxes_.getLast?
        = some (ParseDatasetOtb50.lineRect (gt ++ ['\n']) ((getlines (gt ++ ['\n'])).length - 1)) ∧
      (ParseDatasetOtb50.parse_groundtruth fs2 gtpath d).2.bboxes_
        = (ParseDatasetOtb50.parse_groundtruth fs gtpath d).2.bboxes_
          ++ [ParseDatasetOtb50.lineRect (gt ++ ['\n']) ((getlines (gt ++ ['\n'])).length - 1)]) ∧
    (fs.content gtpath = some ['\n'] →
      (ParseDatasetOtb50.parse_groundtruth fs gtpath d).2.bboxes_ = d.bboxes_ ++ [⟨0, 0, 0, 0⟩]) := by
  refine ⟨by simp [ParseDatasetOtb50.loopBody], fun h => ?_, fun h1 h2 => ⟨?_, ?_⟩, fun h => ?_⟩
  · rw [otb_parse_groundtruth_some fs gtpath d gt h]
    simp
  · rw [otb_parse_groundtruth_some fs gtpath d _ h1]
    have hpos : 0 < (getlines (gt ++ ['\n'])).length :=
      List.length_pos.mpr (getlines_append_newline_ne_nil gt)
    obtain ⟨m, hm⟩ : ∃ m, (getlines (gt ++ ['\n'])).length = m + 1 := ⟨_, (Nat.sub_add_cancel hpos).symm⟩
    simp [hm, List.range_succ]
  · simp only [ParseDatasetOtb50.parse_groundtruth, h1, h2, getlines_blank_trailing,
      otb_loop_blank_last, lineRect_last _ (getlines_append_newline_ne_nil gt)]
  · rw [otb_parse_groundtruth_some fs gtpath d _ h]
    have e : getlines ['\n'] = [[]] := by decide
    have e2 : ParseDatasetOtb50.lineRect ['\n'] 0 = ⟨0, 0, 0, 0⟩ := by decide
    have e3 : List.range 1 = [0] := by decide
    simp [e, e2, e3]

/-- C11 witness: the files `10,20,30,40` with one and with two final newlines. -/
theorem otb_one_rect_for_every_line_witness :
    (ParseDatasetOtb50.parse_groundtruth (fsOnePicture (some ("10,20,30,40".toList ++ ['\n', '\n'])))
        "gt" (ParseDatasetOtb50.new "seq")).2.bboxes_
      = (ParseDatasetOtb50.parse_groundtruth (fsOnePicture (some ("10,20,30,40".toList ++ ['\n'])))
        "gt" (ParseDatasetOtb50.new "seq")).2.bboxes_
        ++ [ParseDatasetOtb50.lineRect ("10,20,30,40".toList ++ ['\n'])
              ((getlines ("10,20,30,40".toList ++ ['\n'])).length - 1)] :=
  ((otb_one_rect_for_every_line (fsOnePicture (some ("10,20,30,40".toList ++ ['\n'])))
      (fsOnePicture (some ("10,20,30,40".toList ++ ['\n', '\n']))) "gt"
      (ParseDatasetOtb50.new "seq") "10,20,30,40".toList (ParseDatasetOtb50.Strs.empty, [])
      []).2.2.1 rfl rfl).2

theorem digitsValue_run (ds rest : List Char) (hd : ∀ c ∈ ds, isdigit c = true)
    (hr : ∀ c ∈ rest.head?, isdigit c = false) :
    ∀ acc : Nat, digitsValue acc (ds ++ rest)
      = ds.foldl (fun a c => a * 10 + (c.toNat - 48)) acc := by
  induction ds with
  | nil =>
    intro acc
    cases rest with
    | nil => rfl
    | cons c cs =>
      have : isdigit c = false := hr c (by simp)
      simp [digitsValue, this]
  | cons d ds ih =>
    intro acc
    have h1 : isdigit d = true := hd d (List.mem_cons_self d ds)
    have h2 : ∀ c ∈ ds, isdigit c = true := fun c hc => hd c (List.mem_cons_of_mem d hc)
    simp only [List.cons_append, digitsValue, h1, if_true, List.foldl_cons]
    exact ih h2 _

theorem atoi_signless (ds rest : List Char) (hne : ds ≠ []) (hd : ∀ c ∈ ds, isdigit c = true)
    (hr : ∀ c ∈ rest.head?, isdigit c = false) :
    atoi (ds ++ rest) = toInt32 (clampLong (decimalValue ds)) := by
  cases ds with
  | nil => exact absurd rfl hne
  | cons c cs =>
    have hc : isdigit c = true := hd c (List.mem_cons_self c cs)
    obtain ⟨hsp, _, hm, hp⟩ := isdigit_not_space c hc
    have hs : ((c :: cs) ++ rest).dropWhile isspace = c :: (cs ++ rest) := by
      rw [List.cons_append, List.dropWhile_cons_of_neg (by simp [hsp])]
    unfold atoi
    rw [hs]
    simp only [hm, hp, if_false]
    rw [← List.cons_append, digitsValue_run (c :: cs) rest hd hr 0]
    rfl

theorem atoi_signed (ds rest : List Char) (hd : ∀ c ∈ ds, isdigit c = true)
    (hr : ∀ c ∈ rest.head?, isdigit c = false) :
    atoi ('+' :: (ds ++ rest)) = toInt32 (clampLong (decimalValue ds)) ∧
    atoi ('-' :: (ds ++ rest)) = toInt32 (clampLong (-(decimalValue ds : Int))) := by
  have hv := digitsValue_run ds rest hd hr 0
  constructor
  · have hs : ('+' :: (ds ++ rest)).dropWhile isspace = '+' :: (ds ++ rest) := by
      rw [List.dropWhile_cons_of_neg (by decide)]
    unfold atoi
    rw [hs]
    have h1 : ¬ ('+' = '-') := by decide
    simp only [h1, if_false, if_true, hv]
    rfl
  · have hs : ('-' :: (ds ++ rest)).dropWhile isspace = '-' :: (ds ++ rest) := by
      rw [List.dropWhile_cons_of_neg (by decide)]
    unfold atoi
    rw [hs]
    simp only [if_true, hv]
    rfl

theorem atoi_no_number (c : Char) (cs : List Char) (hsp : isspace c = false)
    (hd : isdigit c = false) (hm : c ≠ '-') (hp : c ≠ '+') : atoi (c :: cs) = 0 := by
  have hs : (c :: cs).dropWhile isspace = c :: cs := by
    rw [List.dropWhile_cons_of_neg (by simp [hsp])]
  unfold atoi
  rw [hs]
  simp only [hm, hp, if_false, digitsValue, hd, Bool.false_eq_true]
  decide

/-- C12 (as stated, refuted): in the line `12abc 20 30 40` the first token is
not an integer literal, yet the first field is 12, not 0; and in the line
`4294967297 20 30 40` the first token is a decimal integer whose value does
not fit an `int`, and the first field (with `atoi` as `(int) strtol`) is 1. -/
theorem otb_token_with_digit_head :
    (ParseDatasetOtb50.loopBody (ParseDatasetOtb50.Strs.empty, []) "12abc 20 30 40".toList).2
      = [⟨12, 20, 30, 40⟩] ∧
    (ParseDatasetOtb50.loopBody (ParseDatasetOtb50.Strs.empty, []) "4294967297 20 30 40".toList).2
      = [⟨1, 20, 30, 40⟩] := by
  decide

/-- C12 (amended): for every line of four whitespace-or-comma separated
tokens, the fixed-rectangle parser gives each field `atoi` of its own token,
whatever the other three tokens are: the value of the token's leading
optionally signed run of decimal digits when that signed value fits an `int`
(so the integer value of a token that is an optionally signed decimal integer
within `int` range, `-2147483648` included, and 12 for the token `12abc`), and 0
when the token begins with neither a digit nor a sign. -/
theorem otb_fields_are_atoi (t1 t2 t3 t4 s1 s2 s3 : List Char)
    (st : ParseDatasetOtb50.Strs × List Rect)
    (h1 : t1 ≠ [] ∧ ∀ c ∈ t1, isspace c = false ∧ c ≠ ',')
    (h2 : t2 ≠ [] ∧ ∀ c ∈ t2, isspace c = false ∧ c ≠ ',')
    (h3 : t3 ≠ [] ∧ ∀ c ∈ t3, isspace c = false ∧ c ≠ ',')
    (h4 : t4 ≠ [] ∧ ∀ c ∈ t4, isspace c = false ∧ c ≠ ',')
    (hs1 : IsSeparator s1) (hs2 : IsSeparator s2) (hs3 : IsSeparator s3) :
    (ParseDatasetOtb50.loopBody st (t1 ++ s1 ++ t2 ++ s2 ++ t3 ++ s3 ++ t4)).2
      = st.2 ++ [⟨atoi t1, atoi t2, atoi t3, atoi t4⟩] ∧
    (∀ ds rest : List Char, (∀ c ∈ ds, isdigit c = true) →
      (∀ c ∈ rest.head?, isdigit c = false) →
      (ds ≠ [] → IsInt32 (decimalValue ds) → atoi (ds ++ rest) = decimalValue ds) ∧
      (IsInt32 (decimalValue ds) → atoi ('+' :: (ds ++ rest)) = decimalValue ds) ∧
      (IsInt32 (-(decimalValue ds : Int)) →
        atoi ('-' :: (ds ++ rest)) = -(decimalValue ds : Int))) ∧
    (∀ (c : Char) (cs : List Char), isspace c = false → isdigit c = false → c ≠ '-' → c ≠ '+' →
      atoi (c :: cs) = 0) := by
  refine ⟨?_, ?_, atoi_no_number⟩
  · unfold ParseDatasetOtb50.loopBody
    simp only []
    rw [readStrs_four_tokens _ _ _ _ _ _ _ st.1 h1 h2 h3 h4 hs1 hs2 hs3]
    rfl
  · intro ds rest hd hr
    refine ⟨fun hne hv => ?_, fun hv => ?_, fun hneg => ?_⟩
    · rw [atoi_signless ds rest hne hd hr, clampLong_of_int32 _ hv, toInt32_of_range _ hv]
    · rw [(atoi_signed ds rest hd hr).1, clampLong_of_int32 _ hv, toInt32_of_range _ hv]
    · rw [(atoi_signed ds rest hd hr).2, clampLong_of_int32 _ hneg, toInt32_of_range _ hneg]

/-- C12 witness: the line `12abc,-7 +30 x40` gives the rectangle `(12,-7,30,0)`,
and the token `-2147483648` has the value -2147483648. -/
theorem otb_fields_are_atoi_witness :
    ((ParseDatasetOtb50.loopBody (ParseDatasetOtb50.Strs.empty, [])
        ("12abc".toList ++ [','] ++ "-7".toList ++ [' '] ++ "+30".toList ++ [' ']
          ++ "x40".toList)).2
      = [] ++ [⟨atoi "12abc".toList, atoi "-7".toList, atoi "+30".toList, atoi "x40".toList⟩] ∧
      atoi "12abc".toList = 12 ∧ atoi "-7".toList = -7 ∧ atoi "+30".toList = 30 ∧
      atoi "x40".toList = 0) ∧
    (atoi ('-' :: ("2147483648".toList ++ [])) = -(decimalValue "2147483648".toList : Int) ∧
      -(decimalValue "2147483648".toList : Int) = -2147483648) :=
  have w := otb_fields_are_atoi "12abc".toList "-7".toList "+30".toList "x40".toList [','] [' ']
    [' '] (ParseDatasetOtb50.Strs.empty, []) (by decide) (by decide) (by decide) (by decide)
    ⟨by decide, by decide⟩ ⟨by decide, by decide⟩ ⟨by decide, by decide⟩
  ⟨⟨w.1, by decide, by decide, by decide, by decide⟩,
    ⟨(w.2.1 "2147483648".toList [] (by decide) (by intro c hc; cases hc)).2.2
        ⟨by decide, by decide⟩,
      by decide⟩⟩

/-! ## C16: parsing only appends -/

theorem vot_parse_groundtruth_some {α : Type} [LinearOrderedField α] (fs : FileSystem)
    (env : FloatEnv α) (gtpath : String) (v : ParseDatasetVot2013 α) (gt : List Char)
    (h : fs.content gtpath = some gt) :
    ParseDatasetVot2013.parse_groundtruth fs env gtpath v
      = (none, ⟨⟨v.path_, v.pictures_,
          v.bboxes_ ++ (List.range (getlines gt).length).map (fun i =>
            ParseDatasetVot2013.bboxOf env (ParseDatasetVot2013.polygonOf
              (((getlines gt).take (i + 1)).foldl
                (fun f line => env.extract (replaceCommas line) f) env.uninit)))⟩,
          v.polygons_ ++ (List.range (getlines gt).length).map (fun i =>
            ParseDatasetVot2013.polygonOf
              (((getlines gt).take (i + 1)).foldl
                (fun f line => env.extract (replaceCommas line) f) env.uninit))⟩) := by
  simp only [ParseDatasetVot2013.parse_groundtruth, h, vot_loop]

theorem otb_parse_appends (fs : FileSystem) (path : String) :
    ∃ S : List Rect, ∀ d : ParseDataset, d.path_ = path →
      ParseDatasetOtb50.parse fs d
        = ⟨path, d.pictures_ ++ fs.glob (path ++ "/img/*.jpg"), d.bboxes_ ++ S⟩ := by
  cases hc : fs.content (path ++ "/groundtruth_rect.txt") with
  | none =>
    refine ⟨[], fun d hd => ?_⟩
    cases d
    simp only at hd
    subst hd
    simp [ParseDatasetOtb50.parse, ParseDatasetOtb50.parse_groundtruth,
      ParseDatasetOtb50.get_groundtruth_path, ParseDatasetOtb50.get_picture_path,
      ParseDataset.parse_pictures, hc]
  | some gt =>
    refine ⟨(List.range (getlines gt).length).map (ParseDatasetOtb50.lineRect gt), fun d hd => ?_⟩
    cases d
    simp only at hd
    subst hd
    simp only [ParseDatasetOtb50.parse, ParseDatasetOtb50.get_groundtruth_path,
      ParseDatasetOtb50.get_picture_path, ParseDataset.parse_pictures]
    rw [otb_parse_groundtruth_some fs _ _ gt hc]

theorem vot_parse_appends {α : Type} [LinearOrderedField α] (fs : FileSystem) (env : FloatEnv α)
    (path : String) :
    ∃ (S : List Rect) (Q : List (List (Point2f α))), ∀ v : ParseDatasetVot2013 α, v.path_ = path →
      ParseDatasetVot2013.parse fs env v
        = ⟨⟨path, v.pictures_ ++ fs.glob (path ++ "/*.jpg"), v.bboxes_ ++ S⟩, v.polygons_ ++ Q⟩ := by
  cases hc : fs.content (path ++ "/groundtruth.txt") with
  | none =>
    refine ⟨[], [], fun v hv => ?_⟩
    obtain ⟨⟨p, pics, bbs⟩, polys⟩ := v
    simp only at hv
    subst hv
    simp [ParseDatasetVot2013.parse, ParseDatasetVot2013.parse_groundtruth,
      ParseDatasetVot2013.get_groundtruth_path, ParseDatasetVot2013.get_picture_path,
      ParseDatasetVot2013.parse_pictures, ParseDataset.parse_pictures, hc]
  | some gt =>
    refine ⟨(List.range (getlines gt).length).map (fun i =>
        ParseDatasetVot2013.bboxOf env (ParseDatasetVot2013.polygonOf
          (((getlines gt).take (i + 1)).foldl
            (fun f line => env.extract (replaceCommas line) f) env.uninit))),
      (List.range (getlines gt).length).map (fun i =>
        ParseDatasetVot2013.polygonOf
          (((getlines gt).take (i + 1)).foldl
            (fun f line => env.extract (replaceCommas line) f) env.uninit)),
      fun v hv => ?_⟩
    obtain ⟨⟨p, pics, bbs⟩, polys⟩ := v
    simp only at hv
    subst hv
    simp only [ParseDatasetVot2013.parse, ParseDatasetVot2013.get_groundtruth_path,
      ParseDatasetVot2013.get_picture_path, ParseDatasetVot2013.parse_pictures,
      ParseDataset.parse_pictures]
    rw [vot_parse_groundtruth_some fs env _ _ gt hc]

/-- C16: ground-truth parsing only ever appends: for every prior state and
every file (readable or not), after `parse_groundtruth` the previous `bboxes_`
(and `polygons_`) is an initial segment of the new one and `pictures_` is
untouched; and calling `parse()` twice on the same instance with the same input
yields `pictures_ = P ++ P` and `bboxes_ = B ++ B`, where `P` and `B` are the
sequences a single `parse()` of a fresh instance produces. -/
theorem parse_only_appends {α : Type} [LinearOrderedField α] (fs : FileSystem)
    (env : FloatEnv α) (gtpath path : String) (d : ParseDataset) (v : ParseDatasetVot2013 α) :
    ((∃ S, (ParseDatasetOtb50.parse_groundtruth fs gtpath d).2.bboxes_ = d.bboxes_ ++ S) ∧
      (ParseDatasetOtb50.parse_groundtruth fs gtpath d).2.pictures_ = d.pictures_) ∧
    ((∃ S, (ParseDatasetVot2013.parse_groundtruth fs env gtpath v).2.bboxes_ = v.bboxes_ ++ S) ∧
      (∃ Q, (ParseDatasetVot2013.parse_groundtruth fs env gtpath v).2.polygons_
        = v.polygons_ ++ Q) ∧
      (ParseDatasetVot2013.parse_groundtruth fs env gtpath v).2.pictures_ = v.pictures_) ∧
    ((ParseDatasetOtb50.parse fs (ParseDatasetOtb50.parse fs (ParseDatasetOtb50.new path))).pictures_
        = (ParseDatasetOtb50.parse fs (ParseDatasetOtb50.new path)).pictures_
          ++ (ParseDatasetOtb50.parse fs (ParseDatasetOtb50.new path)).pictures_ ∧
      (ParseDatasetOtb50.parse fs (ParseDatasetOtb50.parse fs (ParseDatasetOtb50.new path))).bboxes_
        = (ParseDatasetOtb50.parse fs (ParseDatasetOtb50.new path)).bboxes_
          ++ (ParseDatasetOtb50.parse fs (ParseDatasetOtb50.new path)).bboxes_) ∧
    ((ParseDatasetVot2013.parse fs env
          (ParseDatasetVot2013.parse fs env (ParseDatasetVot2013.new path))).pictures_
        = (ParseDatasetVot2013.parse fs env (ParseDatasetVot2013.new path)).pictures_
          ++ (ParseDatasetVot2013.parse fs env (ParseDatasetVot2013.new path)).pictures_ ∧
      (ParseDatasetVot2013.parse fs env
          (ParseDatasetVot2013.parse fs env (ParseDatasetVot2013.new path))).bboxes_
        = (ParseDatasetVot2013.parse fs env (ParseDatasetVot2013.new path)).bboxes_
          ++ (ParseDatasetVot2013.parse fs env (ParseDatasetVot2013.new path)).bboxes_ ∧
      (ParseDatasetVot2013.parse fs env
          (ParseDatasetVot2013.parse fs env (ParseDatasetVot2013.new path))).polygons_
        = (ParseDatasetVot2013.parse fs env (ParseDatasetVot2013.new path)).polygons_
          ++ (ParseDatasetVot2013.parse fs env (ParseDatasetVot2013.new path)).polygons_) := by
  refine ⟨?_, ?_, ?_, ?_⟩
  · cases hc : fs.content gtpath with
    | none => exact ⟨⟨[], by simp [ParseDatasetOtb50.parse_groundtruth, hc]⟩,
        by simp [ParseDatasetOtb50.parse_groundtruth, hc]⟩
    | some gt =>
      rw [otb_parse_groundtruth_some fs gtpath d gt hc]
      exact ⟨⟨_, rfl⟩, rfl⟩
  · cases hc : fs.content gtpath with
    | none => exact ⟨⟨[], by simp [ParseDatasetVot2013.parse_groundtruth, hc]⟩,
        ⟨[], by simp [ParseDatasetVot2013.parse_groundtruth, hc]⟩,
        by simp [ParseDatasetVot2013.parse_groundtruth, hc]⟩
    | some gt =>
      rw [vot_parse_groundtruth_some fs env gtpath v gt hc]
      exact ⟨⟨_, rfl⟩, ⟨_, rfl⟩, rfl⟩
  · obtain ⟨S, hS⟩ := otb_parse_appends fs path
    have e1 := hS (ParseDatasetOtb50.new path) rfl
    rw [e1, hS _ rfl]
    simp [ParseDatasetOtb50.new, ParseDataset.new]
  · obtain ⟨S, Q, hS⟩ := vot_parse_appends fs env path
    have e1 := hS (ParseDatasetVot2013.new path) rfl
    rw [e1, hS _ rfl]
    simp [ParseDatasetVot2013.new, ParseDataset.new]

/-! ## C13: polygons and rectangles of the polygon variant -/

theorem map_range_getElem? {β : Type} (g : Nat → β) (n i : Nat) (b : β)
    (h : ((List.range n).map g)[i]? = some b) : i < n ∧ b = g i := by
  by_cases hi : i < n
  · refine ⟨hi, ?_⟩
    have e : ((List.range n).map g)[i]? = some (g i) := by
      simp [List.getElem?_range hi]
    rw [e] at h
    exact (Option.some.inj h).symm
  · have e : ((List.range n).map g)[i]? = none := by
      simp [List.getElem?_eq_none, Nat.le_of_not_lt hi]
    rw [e] at h
    cases h

/-- C13: after `parse_groundtruth` on a freshly constructed polygon-variant
parser, for every file content (and also when the file cannot be opened):
`polygons_.size() == bboxes_.size()`, every stored polygon has exactly 4 points,
and for every `i` the stored rectangle `bboxes_[i]` is what the casts to `int`
make of `getAxisAlignedBB(polygons_[i])`, that is the component-wise cast of
the rectangle that `getAxisAlignedBB` returns for the polygon at the same
index. -/
theorem vot_rect_from_polygon {α : Type} [LinearOrderedField α] (fs : FileSystem)
    (env : FloatEnv α) (gtpath path : String) :
    (ParseDatasetVot2013.parse_groundtruth fs env gtpath
        (ParseDatasetVot2013.new path)).2.polygons_.length
      = (ParseDatasetVot2013.parse_groundtruth fs env gtpath
        (ParseDatasetVot2013.new path)).2.bboxes_.length ∧
    (∀ p ∈ (ParseDatasetVot2013.parse_groundtruth fs env gtpath
        (ParseDatasetVot2013.new path)).2.polygons_, p.length = 4) ∧
    (∀ (i : Nat) (p : List (Point2f α)) (b : Rect),
      (ParseDatasetVot2013.parse_groundtruth fs env gtpath
        (ParseDatasetVot2013.new path)).2.polygons_[i]? = some p →
      (ParseDatasetVot2013.parse_groundtruth fs env gtpath
        (ParseDatasetVot2013.new path)).2.bboxes_[i]? = some b →
      b = ParseDatasetVot2013.bboxOf env p ∧
      ∀ rect : Rect_ α, ParseDatasetVot2013.getAxisAlignedBB env.sqrt p = some rect →
        b = ⟨env.toInt rect.x, env.toInt rect.y, env.toInt rect.width, env.toInt rect.height⟩) := by
  have key : ∀ (p : List (Point2f α)) (b : Rect), b = ParseDatasetVot2013.bboxOf env p →
      ∀ rect : Rect_ α, ParseDatasetVot2013.getAxisAlignedBB env.sqrt p = some rect →
        b = ⟨env.toInt rect.x, env.toInt rect.y, env.toInt rect.width, env.toInt rect.height⟩ := by
    intro p b hb rect hr
    rw [hb]
    simp only [ParseDatasetVot2013.bboxOf, hr]
  cases hc : fs.content gtpath with
  | none =>
    simp [ParseDatasetVot2013.parse_groundtruth, hc, ParseDatasetVot2013.new, ParseDataset.new]
  | some gt =>
    rw [vot_parse_groundtruth_some fs env gtpath _ gt hc]
    simp only [ParseDatasetVot2013.new, ParseDataset.new, List.nil_append]
    refine ⟨by simp, ?_, ?_⟩
    · intro p hp
      rw [List.mem_map] at hp
      obtain ⟨i, _, rfl⟩ := hp
      rfl
    · intro i p b hp hb
      obtain ⟨_, rfl⟩ := map_range_getElem? _ _ _ _ hp
      obtain ⟨_, rfl⟩ := map_range_getElem? _ _ _ _ hb
      exact ⟨rfl, key _ _ rfl⟩

/-- C13 witness: a ground-truth file of one line gives one polygon and one
rectangle. -/
theorem vot_rect_from_polygon_witness :
    (ParseDatasetVot2013.parse_groundtruth (fsOnePicture (some "0,0,10,0,10,10,0,10\n".toList))
        envQ "gt" (ParseDatasetVot2013.new "seq")).2.polygons_.length
      = (ParseDatasetVot2013.parse_groundtruth (fsOnePicture (some "0,0,10,0,10,10,0,10\n".toList))
        envQ "gt" (ParseDatasetVot2013.new "seq")).2.bboxes_.length ∧
    (ParseDatasetVot2013.parse_groundtruth (fsOnePicture (some "0,0,10,0,10,10,0,10\n".toList))
        envQ "gt" (ParseDatasetVot2013.new "seq")).2.polygons_.length = 1 :=
  ⟨(vot_rect_from_polygon (fsOnePicture (some "0,0,10,0,10,10,0,10\n".toList)) envQ "gt"
      "seq").1, by decide⟩

/-! ## C14, C15: area and divisor of `getAxisAlignedBB` -/

theorem min4_le {α : Type} [LinearOrderedField α] (a b c d : α) :
    ParseDatasetVot2013.min4 a b c d ≤ a ∧ ParseDatasetVot2013.min4 a b c d ≤ b ∧
    ParseDatasetVot2013.min4 a b c d ≤ c ∧ ParseDatasetVot2013.min4 a b c d ≤ d := by
  unfold ParseDatasetVot2013.min4
  exact ⟨le_trans (min_le_left _ _) (le_trans (min_le_left _ _) (min_le_left _ _)),
    le_trans (min_le_left _ _) (le_trans (min_le_left _ _) (min_le_right _ _)),
    le_trans (min_le_left _ _) (min_le_right _ _), min_le_right _ _⟩

theorem le_max4 {α : Type} [LinearOrderedField α] (a b c d : α) :
    a ≤ ParseDatasetVot2013.max4 a b c d ∧ b ≤ ParseDatasetVot2013.max4 a b c d ∧
    c ≤ ParseDatasetVot2013.max4 a b c d ∧ d ≤ ParseDatasetVot2013.max4 a b c d := by
  unfold ParseDatasetVot2013.max4
  exact ⟨le_trans (le_trans (le_max_left _ _) (le_max_left _ _)) (le_max_left _ _),
    le_trans (le_trans (le_max_right _ _) (le_max_left _ _)) (le_max_left _ _),
    le_trans (le_max_right _ _) (le_max_left _ _), le_max_right _ _⟩

theorem max4_sub_min4_nonneg {α : Type} [LinearOrderedField α] (a b c d : α) :
    0 ≤ ParseDatasetVot2013.max4 a b c d - ParseDatasetVot2013.min4 a b c d :=
  sub_nonneg.mpr (le_trans (min4_le a b c d).1 (le_max4 a b c d).1)

theorem max4_sub_min4_eq_zero_iff {α : Type} [LinearOrderedField α] (a b c d : α) :
    ParseDatasetVot2013.max4 a b c d - ParseDatasetVot2013.min4 a b c d = 0
      ↔ (a = b ∧ b = c ∧ c = d) := by
  obtain ⟨l1, l2, l3, l4⟩ := min4_le a b c d
  obtain ⟨u1, u2, u3, u4⟩ := le_max4 a b c d
  constructor
  · intro h
    have e : ParseDatasetVot2013.max4 a b c d = ParseDatasetVot2013.min4 a b c d :=
      sub_eq_zero.mp h
    rw [e] at u1 u2 u3 u4
    have ha := le_antisymm u1 l1
    have hb := le_antisymm u2 l2
    have hc := le_antisymm u3 l3
    have hd := le_antisymm u4 l4
    exact ⟨ha.trans hb.symm, hb.trans hc.symm, hc.trans hd.symm⟩
  · rintro ⟨rfl, rfl, rfl⟩
    simp [ParseDatasetVot2013.max4, ParseDatasetVot2013.min4]

theorem A1_nonneg (q1 q2 q3 : Point2f ℝ) : 0 ≤ ParseDatasetVot2013.A1 Real.sqrt q1 q2 q3 := by
  unfold ParseDatasetVot2013.A1 ParseDatasetVot2013.norm
  exact mul_nonneg (Real.sqrt_nonneg _) (Real.sqrt_nonneg _)

theorem A2_nonneg {α : Type} [LinearOrderedField α] (q0 q1 q2 q3 : Point2f α) :
    0 ≤ ParseDatasetVot2013.A2 q0 q1 q2 q3 := by
  unfold ParseDatasetVot2013.A2
  exact mul_nonneg (max4_sub_min4_nonneg _ _ _ _) (max4_sub_min4_nonneg _ _ _ _)

/-- C15: for every 4-point polygon, the division `A1 / A2` in `getAxisAlignedBB`
has a zero divisor exactly when the tight bounding box is degenerate, that is
when all four points share one x-coordinate or all four share one
y-coordinate; for every other polygon `A2 > 0` and `A1 / A2 >= 0`, so the
division and the square root are defined and the function returns a
rectangle. -/
theorem getAxisAlignedBB_zero_divisor (p1 p2 p3 p4 : Point2f ℝ) :
    (ParseDatasetVot2013.A2 p1 p2 p3 p4 = 0 ↔
      ((p1.x = p2.x ∧ p2.x = p3.x ∧ p3.x = p4.x) ∨ (p1.y = p2.y ∧ p2.y = p3.y ∧ p3.y = p4.y))) ∧
    (ParseDatasetVot2013.A2 p1 p2 p3 p4 = 0 →
      ParseDatasetVot2013.getAxisAlignedBB Real.sqrt [p1, p2, p3, p4] = none) ∧
    (ParseDatasetVot2013.A2 p1 p2 p3 p4 ≠ 0 →
      0 < ParseDatasetVot2013.A2 p1 p2 p3 p4 ∧
      0 ≤ ParseDatasetVot2013.A1 Real.sqrt p2 p3 p4 / ParseDatasetVot2013.A2 p1 p2 p3 p4 ∧
      Real.sqrt (ParseDatasetVot2013.A1 Real.sqrt p2 p3 p4 / ParseDatasetVot2013.A2 p1 p2 p3 p4) ^ 2
        = ParseDatasetVot2013.A1 Real.sqrt p2 p3 p4 / ParseDatasetVot2013.A2 p1 p2 p3 p4 ∧
      ∃ r : Rect_ ℝ, ParseDatasetVot2013.getAxisAlignedBB Real.sqrt [p1, p2, p3, p4] = some r) := by
  refine ⟨?_, ?_, ?_⟩
  · unfold ParseDatasetVot2013.A2
    rw [mul_eq_zero, max4_sub_min4_eq_zero_iff, max4_sub_min4_eq_zero_iff]
  · intro h
    simp [ParseDatasetVot2013.getAxisAlignedBB, h]
  · intro h
    have hpos : 0 < ParseDatasetVot2013.A2 p1 p2 p3 p4 :=
      lt_of_le_of_ne (A2_nonneg p1 p2 p3 p4) (Ne.symm h)
    have hq : 0 ≤ ParseDatasetVot2013.A1 Real.sqrt p2 p3 p4 / ParseDatasetVot2013.A2 p1 p2 p3 p4 :=
      div_nonneg (A1_nonneg p2 p3 p4) hpos.le
    exact ⟨hpos, hq, Real.sq_sqrt hq, _, getAxisAlignedBB_of_A2_ne_zero Real.sqrt p1 p2 p3 p4 h⟩

/-- C14: for every polygon that is a (possibly rotated) rectangle with its four
vertices given in order and whose tight axis-aligned bounding box has positive
area, the rectangle returned by `getAxisAlignedBB`, without its +1 padding, has
the same area as the input rectangle: `(width - 1) * (height - 1)` equals the
product of the input rectangle's two side lengths (exact real arithmetic). -/
theorem getAxisAlignedBB_rectangle_area (p1 p2 p3 p4 : Point2f ℝ)
    (hrect : IsRectangle p1 p2 p3 p4) (hA2 : 0 < ParseDatasetVot2013.A2 p1 p2 p3 p4) :
    ∃ r : Rect_ ℝ, ParseDatasetVot2013.getAxisAlignedBB Real.sqrt [p1, p2, p3, p4] = some r ∧
      (r.width - 1) * (r.height - 1)
        = edgeLength Real.sqrt p1 p2 * edgeLength Real.sqrt p2 p3 := by
  have hne : ParseDatasetVot2013.A2 p1 p2 p3 p4 ≠ 0 := ne_of_gt hA2
  refine ⟨_, getAxisAlignedBB_of_A2_ne_zero Real.sqrt p1 p2 p3 p4 hne, ?_⟩
  have hq : 0 ≤ ParseDatasetVot2013.A1 Real.sqrt p2 p3 p4 / ParseDatasetVot2013.A2 p1 p2 p3 p4 :=
    div_nonneg (A1_nonneg p2 p3 p4) hA2.le
  have hs := Real.sq_sqrt hq
  have hedge : edgeLength Real.sqrt p3 p4 = edgeLength Real.sqrt p1 p2 := by
    obtain ⟨hx, hy, _⟩ := hrect
    unfold edgeLength
    congr 1
    rw [← hx, ← hy]
    ring
  have hA1 : ParseDatasetVot2013.A1 Real.sqrt p2 p3 p4
      = edgeLength Real.sqrt p1 p2 * edgeLength Real.sqrt p2 p3 := by
    rw [A1_eq_edgeLength, hedge]
    ring
  have hprod : (ParseDatasetVot2013.max4 p1.x p2.x p3.x p4.x
        - ParseDatasetVot2013.min4 p1.x p2.x p3.x p4.x)
      * (ParseDatasetVot2013.max4 p1.y p2.y p3.y p4.y
        - ParseDatasetVot2013.min4 p1.y p2.y p3.y p4.y)
      = ParseDatasetVot2013.A2 p1 p2 p3 p4 := rfl
  simp only [add_sub_cancel_right]
  calc Real.sqrt (ParseDatasetVot2013.A1 Real.sqrt p2 p3 p4 / ParseDatasetVot2013.A2 p1 p2 p3 p4)
          * (ParseDatasetVot2013.max4 p1.x p2.x p3.x p4.x
            - ParseDatasetVot2013.min4 p1.x p2.x p3.x p4.x)
        * (Real.sqrt (ParseDatasetVot2013.A1 Real.sqrt p2 p3 p4
            / ParseDatasetVot2013.A2 p1 p2 p3 p4)
          * (ParseDatasetVot2013.max4 p1.y p2.y p3.y p4.y
            - ParseDatasetVot2013.min4 p1.y p2.y p3.y p4.y))
      = Real.sqrt (ParseDatasetVot2013.A1 Real.sqrt p2 p3 p4
            / ParseDatasetVot2013.A2 p1 p2 p3 p4) ^ 2
          * ((ParseDatasetVot2013.max4 p1.x p2.x p3.x p4.x
            - ParseDatasetVot2013.min4 p1.x p2.x p3.x p4.x)
          * (ParseDatasetVot2013.max4 p1.y p2.y p3.y p4.y
            - ParseDatasetVot2013.min4 p1.y p2.y p3.y p4.y)) := by ring
    _ = ParseDatasetVot2013.A1 Real.sqrt p2 p3 p4 / ParseDatasetVot2013.A2 p1 p2 p3 p4
          * ParseDatasetVot2013.A2 p1 p2 p3 p4 := by rw [hs, hprod]
    _ = ParseDatasetVot2013.A1 Real.sqrt p2 p3 p4 := div_mul_cancel₀ _ hne
    _ = edgeLength Real.sqrt p1 p2 * edgeLength Real.sqrt p2 p3 := hA1

/-- C14 witness: the rotated rectangle `(0,1), (1,0), (3,2), (2,3)`, whose tight
box is `[0,3] x [0,3]`. -/
theorem getAxisAlignedBB_rectangle_area_witness :
    ∃ r : Rect_ ℝ,
      ParseDatasetVot2013.getAxisAlignedBB Real.sqrt
          [(⟨0, 1⟩ : Point2f ℝ), ⟨1, 0⟩, ⟨3, 2⟩, ⟨2, 3⟩] = some r ∧
      (r.width - 1) * (r.height - 1)
        = edgeLength Real.sqrt (⟨0, 1⟩ : Point2f ℝ) ⟨1, 0⟩
          * edgeLength Real.sqrt (⟨1, 0⟩ : Point2f ℝ) ⟨3, 2⟩ :=
  getAxisAlignedBB_rectangle_area ⟨0, 1⟩ ⟨1, 0⟩ ⟨3, 2⟩ ⟨2, 3⟩
    (by norm_num [IsRectangle])
    (by norm_num [ParseDatasetVot2013.A2, ParseDatasetVot2013.min4, ParseDatasetVot2013.max4])
